import Mathlib

/-!
Shallow embedding of the go-structfilter engine
(`github.com/TheCount/go-structfilter/structfilter`).

Go `reflect` types are modelled by the inductive `GoType`; named struct
types and named non-struct type aliases live in a type environment `Env`,
which breaks the cycles of self-referential Go type declarations.  Go
values are modelled by `GoVal` together with an explicit heap assigning
cells to pointer/slice/map identities, which is how the `unsafe.Pointer`
identity cache of the value conversion engine is made meaningful.
Functions that recurse through the (possibly cyclic) type or value graph
take a fuel parameter; exhausting the fuel is recorded by the dedicated
error `Err.noFuel`, which models divergence of the Go original and is kept
distinct from Go `error` values (`Err.goErr`).
-/

namespace Structfilter

/-- Association-list lookup keyed by decidable equality (Go map read). -/
def alookup {κ α : Type} [DecidableEq κ] : List (κ × α) → κ → Option α
  | [], _ => none
  | (k, a) :: rest, key => if k = key then some a else alookup rest key

/-- Association-list removal of every binding of a key (Go `delete`). -/
def aerase {κ α : Type} [DecidableEq κ] (m : List (κ × α)) (key : κ) :
    List (κ × α) :=
  m.filter (fun p => ¬ p.1 = key)

/-- Association-list update (Go `m[k] = v`). -/
def aset {κ α : Type} [DecidableEq κ] (m : List (κ × α)) (key : κ) (a : α) :
    List (κ × α) :=
  (key, a) :: aerase m key

theorem alookup_aset {κ α : Type} [DecidableEq κ] (m : List (κ × α))
    (key : κ) (a : α) : alookup (aset m key a) key = some a := by
  simp [aset, alookup]

theorem alookup_aerase_ne {κ α : Type} [DecidableEq κ] (m : List (κ × α))
    (key key2 : κ) (h : ¬ key = key2) :
    alookup (aerase m key) key2 = alookup m key2 := by
  induction m with
  | nil => rfl
  | cons p rest ih =>
      obtain ⟨k, v⟩ := p
      by_cases hp : k = key
      · subst hp
        simpa [aerase, alookup, h] using ih
      · by_cases hq : k = key2
        · subst hq
          simp [aerase, alookup, List.filter_cons, hp]
        · simpa [aerase, alookup, List.filter_cons, hp, hq] using ih

theorem alookup_aset_ne {κ α : Type} [DecidableEq κ] (m : List (κ × α))
    (key key2 : κ) (a : α) (h : ¬ key = key2) :
    alookup (aset m key a) key2 = alookup m key2 := by
  simp [aset, alookup, h]
  exact alookup_aerase_ne m key key2 h

mutual

/-- Model of `reflect.Type`.  `prim` covers every kind the engine treats as
a leaf (booleans, numbers, strings, channels, functions, ...).  `iface k`
is an interface type; `iface 0` is the plain empty interface of the
source's `interfaceType` variable, positive `k` stand for other interface
types.  `structT` is a named struct type whose fields live in the
environment, `structOf` is an unnamed struct type (the result of
`reflect.StructOf`, identified structurally, as in Go), and `named` is a
named non-struct type alias (e.g. the test's `CuriousPointer`) whose
underlying type lives in the environment. -/
inductive GoType where
  | prim : String → GoType
  | array : Nat → GoType → GoType
  | slice : GoType → GoType
  | ptr : GoType → GoType
  | mapT : GoType → GoType → GoType
  | iface : Nat → GoType
  | structT : String → GoType
  | structOf : List StructField → GoType
  | named : String → GoType

/-- Model of `reflect.StructField`: name, tag, embedded flag, package path
(empty exactly for exported fields) and field type. -/
inductive StructField where
  | mk : String → String → Bool → String → GoType → StructField

end

namespace StructField

def name : StructField → String
  | .mk n _ _ _ _ => n

def tag : StructField → String
  | .mk _ g _ _ _ => g

def anonymous : StructField → Bool
  | .mk _ _ a _ _ => a

def pkgPath : StructField → String
  | .mk _ _ _ p _ => p

def type : StructField → GoType
  | .mk _ _ _ _ ty => ty

end StructField

mutual

def GoType.beq : GoType → GoType → Bool
  | .prim a, .prim b => a == b
  | .array n a, .array m b => n == m && GoType.beq a b
  | .slice a, .slice b => GoType.beq a b
  | .ptr a, .ptr b => GoType.beq a b
  | .mapT k v, .mapT k2 v2 => GoType.beq k k2 && GoType.beq v v2
  | .iface a, .iface b => a == b
  | .structT a, .structT b => a == b
  | .structOf fs, .structOf gs => fieldsBeq fs gs
  | .named a, .named b => a == b
  | _, _ => false

def StructField.beq : StructField → StructField → Bool
  | .mk n t a p ty, .mk n2 t2 a2 p2 ty2 =>
      n == n2 && t == t2 && a == a2 && p == p2 && GoType.beq ty ty2

def fieldsBeq : List StructField → List StructField → Bool
  | [], [] => true
  | f :: fs, g :: gs => StructField.beq f g && fieldsBeq fs gs
  | _, _ => false

end

mutual

theorem tyBeq_refl : (a : GoType) → GoType.beq a a = true
  | .prim a => by simp [GoType.beq]
  | .array n a => by simp [GoType.beq, tyBeq_refl a]
  | .slice a => by simp [GoType.beq, tyBeq_refl a]
  | .ptr a => by simp [GoType.beq, tyBeq_refl a]
  | .mapT k v => by simp [GoType.beq, tyBeq_refl k, tyBeq_refl v]
  | .iface a => by simp [GoType.beq]
  | .structT a => by simp [GoType.beq]
  | .structOf fs => by simp [GoType.beq, fieldsBeq_refl fs]
  | .named a => by simp [GoType.beq]

theorem sfBeq_refl : (f : StructField) → StructField.beq f f = true
  | .mk n t a p ty => by simp [StructField.beq, tyBeq_refl ty]

theorem fieldsBeq_refl : (fs : List StructField) → fieldsBeq fs fs = true
  | [] => by simp [fieldsBeq]
  | f :: fs => by simp [fieldsBeq, sfBeq_refl f, fieldsBeq_refl fs]

end

mutual

theorem tyBeq_eq_of : (a b : GoType) → GoType.beq a b = true → a = b
  | .prim x, b, h => by
      cases b <;> simp [GoType.beq] at h; rw [h]
  | .array n x, b, h => by
      cases b with
      | array m y =>
          simp [GoType.beq] at h
          rw [h.1, tyBeq_eq_of x y h.2]
      | _ => simp [GoType.beq] at h
  | .slice x, b, h => by
      cases b with
      | slice y => rw [tyBeq_eq_of x y (by simpa [GoType.beq] using h)]
      | _ => simp [GoType.beq] at h
  | .ptr x, b, h => by
      cases b with
      | ptr y => rw [tyBeq_eq_of x y (by simpa [GoType.beq] using h)]
      | _ => simp [GoType.beq] at h
  | .mapT k v, b, h => by
      cases b with
      | mapT k2 v2 =>
          simp [GoType.beq] at h
          rw [tyBeq_eq_of k k2 h.1, tyBeq_eq_of v v2 h.2]
      | _ => simp [GoType.beq] at h
  | .iface x, b, h => by
      cases b <;> simp [GoType.beq] at h; rw [h]
  | .structT x, b, h => by
      cases b <;> simp [GoType.beq] at h; rw [h]
  | .structOf fs, b, h => by
      cases b with
      | structOf gs =>
          rw [fields_eq_of_beq fs gs (by simpa [GoType.beq] using h)]
      | _ => simp [GoType.beq] at h
  | .named x, b, h => by
      cases b <;> simp [GoType.beq] at h; rw [h]

theorem sfBeq_eq_of :
    (f g : StructField) → StructField.beq f g = true → f = g
  | .mk n t a p ty, .mk n2 t2 a2 p2 ty2, h => by
      simp only [StructField.beq, Bool.and_eq_true, beq_iff_eq] at h
      obtain ⟨⟨⟨⟨h1, h2⟩, h3⟩, h4⟩, h5⟩ := h
      subst h1; subst h2; subst h3; subst h4
      rw [tyBeq_eq_of ty ty2 h5]

theorem fields_eq_of_beq :
    (fs gs : List StructField) → fieldsBeq fs gs = true → fs = gs
  | [], [], _ => rfl
  | f :: fs, g :: gs, h => by
      simp [fieldsBeq] at h
      rw [sfBeq_eq_of f g h.1, fields_eq_of_beq fs gs h.2]
  | [], _ :: _, h => by simp [fieldsBeq] at h
  | _ :: _, [], h => by simp [fieldsBeq] at h

end

instance : DecidableEq GoType := fun a b =>
  if h : GoType.beq a b = true then .isTrue (tyBeq_eq_of a b h)
  else .isFalse (fun he => h (he ▸ tyBeq_refl a))

instance : DecidableEq StructField := fun a b =>
  if h : StructField.beq a b = true then .isTrue (sfBeq_eq_of a b h)
  else .isFalse (fun he => h (he ▸ sfBeq_refl a))

/-- A named type declaration: either a struct definition (field list) or a
non-struct alias (underlying type). -/
inductive TypeDef where
  | structDef : List StructField → TypeDef
  | aliasDef : GoType → TypeDef
  deriving DecidableEq

/-- Type environment: the Go program's named type declarations. -/
abbrev Env := List (String × TypeDef)

/-- The `reflect` type of the plain empty interface (the source's
`interfaceType` package variable). -/
def interfaceType : GoType := GoType.iface 0

/-- Resolve one level of `named` aliasing, so that the Go `Kind` and the
component accessors of a type can be read off the constructor. -/
def underlying (env : Env) : GoType → GoType
  | .named n =>
      match alookup env n with
      | some (.aliasDef u) => u
      | _ => .prim ("undefined:" ++ n)
  | ty => ty

/-- Field list of a struct type: environment lookup for named struct
types, the carried list for unnamed ones. -/
def fieldsOf (env : Env) : GoType → Option (List StructField)
  | .structT n =>
      match alookup env n with
      | some (.structDef fs) => some fs
      | _ => none
  | .structOf fs => some fs
  | _ => none

/-- Go `reflect.Kind`, coarsened to the distinctions the engine makes. -/
inductive Kind where
  | kPrim | kArray | kSlice | kPtr | kMap | kIface | kStruct
  deriving DecidableEq

/-- Kind of a type (resolving one level of named aliasing). -/
def kindOf (env : Env) (ty : GoType) : Kind :=
  match underlying env ty with
  | .prim _ => .kPrim
  | .array _ _ => .kArray
  | .slice _ => .kSlice
  | .ptr _ => .kPtr
  | .mapT _ _ => .kMap
  | .iface _ => .kIface
  | .structT _ => .kStruct
  | .structOf _ => .kStruct
  | .named _ => .kPrim

/-- Go `Type.Elem()` for arrays, slices, pointers and maps. -/
def elemOf (env : Env) (ty : GoType) : GoType :=
  match underlying env ty with
  | .array _ e => e
  | .slice e => e
  | .ptr e => e
  | .mapT _ v => v
  | _ => ty

/-- Go `Type.Key()` for maps. -/
def keyOf (env : Env) (ty : GoType) : GoType :=
  match underlying env ty with
  | .mapT k _ => k
  | _ => ty

/-- Go `Type.Len()` for arrays. -/
def lenOf (env : Env) (ty : GoType) : Nat :=
  match underlying env ty with
  | .array n _ => n
  | _ => 0

/-- Errors: `goErr` models a Go `error` value by its message; `noFuel`
marks fuel exhaustion of the model and stands for divergence of the Go
original. -/
inductive Err where
  | goErr : String → Err
  | noFuel : Err
  deriving DecidableEq

/-- Error wrapping in the style of the source's
`fmt.Errorf("...: %w", err)`.  Divergence is not wrapped. -/
def wrapErr (ctx : String) : Err → Err
  | .goErr s => .goErr (ctx ++ ": " ++ s)
  | .noFuel => .noFuel

/-- The `Field` descriptor of field.go/part_006: immutable `name`,
mutable exported `Tag`, mutable `keep` flag. -/
structure Field where
  name : String
  Tag : String
  keep : Bool
  deriving DecidableEq

/-- `Field.Name` accessor. -/
def Field.Name (f : Field) : String := f.name

/-- `Field.Remove`: mark the field for removal (a later filter may
countermand it with `Keep`). -/
def Field.Remove (f : Field) : Field := Field.mk f.name f.Tag false

/-- `Field.Keep`: mark the field to be kept (the default; countermands an
earlier `Remove`). -/
def Field.Keep (f : Field) : Field := Field.mk f.name f.Tag true

/-- Model of the source's `Func` filter-function type: rules mutate the
descriptor and may fail, modelled by state passing through `Except`. -/
def Func : Type := Field → Except Err Field

/-- Loop body of the multi-filter case of `combineFilters`: apply the
filters in order to the same descriptor, wrapping a failure with the index
of the failing filter. -/
def combineLoop : List Func → Nat → Field → Except Err Field
  | [], _, field => .ok field
  | g :: gs, i, field =>
      match g field with
      | .error e => .error (wrapErr ("filter[" ++ toString i ++ "]") e)
      | .ok field2 => combineLoop gs (i + 1) field2

/-- `combineFilters` (filter.go): combine multiple filters (or none) into
a single filter. -/
def combineFilters (filters : List Func) : Func :=
  match filters with
  | [] => fun _field => .ok _field
  | [f] => f
  | fs => fun field => combineLoop fs 0 field

/-- The main structfilter type `T`: the combined filter function and the
map from original structure types to their filtered structure types.  A
`none` entry in `types` is the in-progress reservation (`nil` in Go). -/
structure T where
  filter : Func
  types : List (GoType × Option GoType)

/-- `New` (filter.go): create a structfilter from filter functions. -/
def New (filters : List Func) : T := T.mk (combineFilters filters) []

/-- Outcome of `getStructType`: a struct type with its indirection depth,
the not-a-struct marker (`nil, -1` in Go), or fuel exhaustion (the Go
original loops forever on an infinite pointer chain). -/
inductive StructSearch where
  | found : GoType → Nat → StructSearch
  | notStruct : StructSearch
  | out : StructSearch
  deriving DecidableEq

/-- Unwrapping loop of `getStructType` (part_004). -/
def getStructTypeFuel (env : Env) : Nat → GoType → Nat → StructSearch
  | 0, _, _ => .out
  | fuel + 1, ty, depth =>
      match kindOf env ty with
      | .kStruct => .found ty depth
      | .kPtr => getStructTypeFuel env fuel (elemOf env ty) (depth + 1)
      | _ => .notStruct

/-- `getStructType` (part_004): peel `*`s off `StructType`, `*StructType`,
`**StructType`, ..., counting the indirections. -/
def getStructType (env : Env) (fuel : Nat) (ty : GoType) : StructSearch :=
  getStructTypeFuel env fuel ty 0

mutual

/-- `T.mapType` (part_004): map an original type to a matching generated
type; `ok none` is Go's `nil, nil` answer for a type that cannot be mapped
because it is recursive. -/
def T.mapType (env : Env) : Nat → T → GoType → (Except Err (Option GoType)) × T
  | 0, t, _ => (.error .noFuel, t)
  | fuel + 1, t, orig =>
      match underlying env orig with
      | .array n e =>
          match T.mapType env fuel t e with
          | (.error err, t2) => (.error err, t2)
          | (.ok none, t2) => (.ok none, t2)
          | (.ok (some e2), t2) =>
              if e2 = e then (.ok (some orig), t2)
              else (.ok (some (.array n e2)), t2)
      | .iface _ => (.ok (some interfaceType), t)
      | .mapT k v =>
          match T.mapType env fuel t k with
          | (.error err, t2) => (.error err, t2)
          | (.ok kr, t2) =>
              match T.mapType env fuel t2 v with
              | (.error err, t3) => (.error err, t3)
              | (.ok vr, t3) =>
                  match kr, vr with
                  | some k2, some v2 =>
                      if k2 = k ∧ v2 = v then (.ok (some orig), t3)
                      else (.ok (some (.mapT k2 v2)), t3)
                  | _, _ => (.ok none, t3)
      | .ptr e =>
          match T.mapType env fuel t e with
          | (.error err, t2) => (.error err, t2)
          | (.ok none, t2) => (.ok none, t2)
          | (.ok (some e2), t2) =>
              if e2 = e then (.ok (some orig), t2)
              else (.ok (some (.ptr e2)), t2)
      | .slice e =>
          match T.mapType env fuel t e with
          | (.error err, t2) => (.error err, t2)
          | (.ok none, t2) => (.ok none, t2)
          | (.ok (some e2), t2) =>
              if e2 = e then (.ok (some orig), t2)
              else (.ok (some (.slice e2)), t2)
      | .structT _ => T.mapStructType env fuel t orig
      | .structOf _ => T.mapStructType env fuel t orig
      | .prim _ => (.ok (some orig), t)
      | .named _ => (.ok (some orig), t)

/-- Struct case of `T.mapType`: consult the `types` map (a `none` value is
the in-progress reservation, answered by the opaque `nil`), otherwise
derive the filtered type. -/
def T.mapStructType (env : Env) :
    Nat → T → GoType → (Except Err (Option GoType)) × T
  | 0, t, _ => (.error .noFuel, t)
  | fuel + 1, t, orig =>
      match alookup t.types orig with
      | some r => (.ok r, t)
      | none =>
          match T.filterType env fuel t orig with
          | (.error err, t2) => (.error err, t2)
          | (.ok ft, t2) => (.ok (some ft), t2)

/-- `T.filterType` (filter.go): reserve the in-progress slot, filter the
fields, build the new struct type and memoize it; on any failure the
deferred handler evicts this type's entry. -/
def T.filterType (env : Env) : Nat → T → GoType → (Except Err GoType) × T
  | 0, t, _ => (.error .noFuel, t)
  | fuel + 1, t, orig =>
      match fieldsOf env orig with
      | none =>
          (.error (.goErr "panic attempting to create filtered type: not a struct"),
           T.mk t.filter (aerase t.types orig))
      | some ofs =>
          match T.filterFields env fuel (T.mk t.filter (aset t.types orig none)) ofs with
          | (.error err, t2) => (.error err, T.mk t2.filter (aerase t2.types orig))
          | (.ok sfs, t2) =>
              (.ok (GoType.structOf sfs),
               T.mk t2.filter (aset t2.types orig (some (GoType.structOf sfs))))

/-- Field loop of `T.filterType`: skip unexported fields, run the filter
chain on a fresh descriptor, drop fields whose `keep` flag ends up false
and map the rest through `T.newField`; failures are wrapped with the
field's name and abort the loop. -/
def T.filterFields (env : Env) :
    Nat → T → List StructField → (Except Err (List StructField)) × T
  | 0, t, _ => (.error .noFuel, t)
  | _ + 1, t, [] => (.ok [], t)
  | fuel + 1, t, origField :: rest =>
      if ¬ origField.pkgPath = "" then T.filterFields env fuel t rest
      else
        match t.filter (Field.mk origField.name origField.tag true) with
        | .error err => (.error (wrapErr origField.name err), t)
        | .ok field2 =>
            if field2.keep = false then T.filterFields env fuel t rest
            else
              match T.newField env fuel t origField field2 with
              | (.error err, t2) => (.error (wrapErr origField.name err), t2)
              | (.ok sf, t2) =>
                  match T.filterFields env fuel t2 rest with
                  | (.error err, t3) => (.error err, t3)
                  | (.ok sfs, t3) => (.ok (sf :: sfs), t3)

/-- `T.newField` (part_006): build the new struct field; an unmappable
(recursive) field type becomes the opaque `interfaceType`. -/
def T.newField (env : Env) :
    Nat → T → StructField → Field → (Except Err StructField) × T
  | 0, t, _, _ => (.error .noFuel, t)
  | fuel + 1, t, orig, field =>
      match T.mapType env fuel t orig.type with
      | (.error err, t2) => (.error err, t2)
      | (.ok none, t2) =>
          (.ok (StructField.mk field.name field.Tag orig.anonymous "" interfaceType),
           t2)
      | (.ok (some mapped), t2) =>
          (.ok (StructField.mk field.name field.Tag orig.anonymous "" mapped), t2)

end

/-- `T.ReflectType` (part_004): direct filtering of a struct type or a
single-level pointer to one; a memoized (or in-progress) entry is returned
as-is, like the Go `t.types[structType]` hit, which can answer `nil, nil`
(`ok none`). -/
def T.ReflectType (env : Env) (fuel : Nat) (t : T) (orig : Option GoType) :
    (Except Err (Option GoType)) × T :=
  match orig with
  | none => (.error (.goErr "orig is nil"), t)
  | some ty =>
      match getStructType env fuel ty with
      | .out => (.error .noFuel, t)
      | .notStruct =>
          (.error (.goErr "not a struct type or pointer to struct type"), t)
      | .found structType depth =>
          if depth > 1 then
            (.error (.goErr "at most one pointer indirection allowed"), t)
          else
            match alookup t.types structType with
            | some filteredType => (.ok filteredType, t)
            | none =>
                match T.filterType env fuel t structType with
                | (.error err, t2) => (.error err, t2)
                | (.ok ft, t2) => (.ok (some ft), t2)

mutual

/-- Structural size of a type term, used to bound terminating
reference-chain unwrapping. -/
def tySize : GoType → Nat
  | .prim _ => 1
  | .array _ e => tySize e + 1
  | .slice e => tySize e + 1
  | .ptr e => tySize e + 1
  | .mapT k v => tySize k + tySize v + 1
  | .iface _ => 1
  | .structT _ => 1
  | .structOf fs => fieldsSize fs + 1
  | .named _ => 1

/-- Structural size of a field list. -/
def fieldsSize : List StructField → Nat
  | [] => 0
  | .mk _ _ _ _ ty :: fs => tySize ty + fieldsSize fs + 1

end

/-- Modelled from the spec: `T.UnfilteredReflectType` is not among the
provided sources (only its tests and callers are).  Per spec §4.4/§3 it
marks a shape, by exact shape identity, to bypass derivation and
conversion, and registering a null shape, or a shape that is not a record
or reference chain to one — e.g. a bare self-referential pointer, slice
or map type — is a safe no-op that adds no entry to the registry.  The
reference-chain unwrapping is given enough fuel for every terminating
chain (each step either peels a structural pointer or consumes a distinct
environment entry), so self-referential non-record chains exhaust it and
fall through to the no-op. -/
def T.UnfilteredReflectType (env : Env) (t : T) (orig : Option GoType) : T :=
  match orig with
  | none => t
  | some ty =>
      match getStructType env (env.length + tySize ty + 1) ty with
      | .found s _ => T.mk t.filter (aset t.types s (some s))
      | _ => t

/-- Model of a `reflect.Value`.  Every value carries its `reflect` type.
Pointer, slice and map values carry their runtime identity — the address
Go's `unsafe.Pointer(origValue.Pointer())` would yield — as an optional
heap address (`none` is `nil`); the pointee, backing array and entry list
live in a separate heap, which makes cyclic values representable. -/
inductive GoVal where
  | vPrim : GoType → Nat → GoVal
  | vArray : GoType → List GoVal → GoVal
  | vStruct : GoType → List GoVal → GoVal
  | vPtr : GoType → Option Nat → GoVal
  | vSlice : GoType → Option Nat → GoVal
  | vMap : GoType → Option Nat → GoVal
  | vIface : GoType → Option GoVal → GoVal

mutual

def GoVal.beq : GoVal → GoVal → Bool
  | .vPrim t n, .vPrim t2 n2 => t == t2 && n == n2
  | .vArray t es, .vArray t2 es2 => t == t2 && valsBeq es es2
  | .vStruct t es, .vStruct t2 es2 => t == t2 && valsBeq es es2
  | .vPtr t a, .vPtr t2 a2 => t == t2 && a == a2
  | .vSlice t a, .vSlice t2 a2 => t == t2 && a == a2
  | .vMap t a, .vMap t2 a2 => t == t2 && a == a2
  | .vIface t o, .vIface t2 o2 => t == t2 && ovalBeq o o2
  | _, _ => false

def valsBeq : List GoVal → List GoVal → Bool
  | [], [] => true
  | v :: vs, w :: ws => GoVal.beq v w && valsBeq vs ws
  | _, _ => false

def ovalBeq : Option GoVal → Option GoVal → Bool
  | none, none => true
  | some v, some w => GoVal.beq v w
  | _, _ => false

end

mutual

theorem valBeq_refl : (v : GoVal) → GoVal.beq v v = true
  | .vPrim t n => by simp [GoVal.beq]
  | .vArray t es => by simp [GoVal.beq, valsBeq_refl es]
  | .vStruct t es => by simp [GoVal.beq, valsBeq_refl es]
  | .vPtr t a => by simp [GoVal.beq]
  | .vSlice t a => by simp [GoVal.beq]
  | .vMap t a => by simp [GoVal.beq]
  | .vIface t o => by simp [GoVal.beq, ovalBeq_refl o]

theorem valsBeq_refl : (vs : List GoVal) → valsBeq vs vs = true
  | [] => by simp [valsBeq]
  | v :: vs => by simp [valsBeq, valBeq_refl v, valsBeq_refl vs]

theorem ovalBeq_refl : (o : Option GoVal) → ovalBeq o o = true
  | none => by simp [ovalBeq]
  | some v => by simp [ovalBeq, valBeq_refl v]

end

mutual

theorem valBeq_eq_of : (v w : GoVal) → GoVal.beq v w = true → v = w
  | .vPrim t n, w, h => by
      cases w <;> simp [GoVal.beq] at h; rw [h.1, h.2]
  | .vArray t es, w, h => by
      cases w with
      | vArray t2 es2 =>
          simp [GoVal.beq] at h
          rw [h.1, vals_eq_of_beq es es2 h.2]
      | _ => simp [GoVal.beq] at h
  | .vStruct t es, w, h => by
      cases w with
      | vStruct t2 es2 =>
          simp [GoVal.beq] at h
          rw [h.1, vals_eq_of_beq es es2 h.2]
      | _ => simp [GoVal.beq] at h
  | .vPtr t a, w, h => by
      cases w <;> simp [GoVal.beq] at h; rw [h.1, h.2]
  | .vSlice t a, w, h => by
      cases w <;> simp [GoVal.beq] at h; rw [h.1, h.2]
  | .vMap t a, w, h => by
      cases w <;> simp [GoVal.beq] at h; rw [h.1, h.2]
  | .vIface t o, w, h => by
      cases w with
      | vIface t2 o2 =>
          simp [GoVal.beq] at h
          rw [h.1, oval_eq_of_beq o o2 h.2]
      | _ => simp [GoVal.beq] at h

theorem vals_eq_of_beq : (vs ws : List GoVal) → valsBeq vs ws = true → vs = ws
  | [], [], _ => rfl
  | v :: vs, w :: ws, h => by
      simp [valsBeq] at h
      rw [valBeq_eq_of v w h.1, vals_eq_of_beq vs ws h.2]
  | [], _ :: _, h => by simp [valsBeq] at h
  | _ :: _, [], h => by simp [valsBeq] at h

theorem oval_eq_of_beq :
    (o o2 : Option GoVal) → ovalBeq o o2 = true → o = o2
  | none, none, _ => rfl
  | some v, some w, h => by rw [valBeq_eq_of v w (by simpa [ovalBeq] using h)]
  | none, some _, h => by simp [ovalBeq] at h
  | some _, none, h => by simp [ovalBeq] at h

end

instance : DecidableEq GoVal := fun v w =>
  if h : GoVal.beq v w = true then .isTrue (valBeq_eq_of v w h)
  else .isFalse (fun he => h (he ▸ valBeq_refl v))

/-- Heap cell: pointee of a pointer, backing array of a slice, or entry
list of a map. -/
inductive Cell where
  | cPtr : GoVal → Cell
  | cSlice : List GoVal → Cell
  | cMap : List (GoVal × GoVal) → Cell
  deriving DecidableEq

/-- A heap assigns cells to addresses. -/
abbrev Heap := List (Nat × Cell)

/-- Go `reflect.Value.Type()`. -/
def typeOf : GoVal → GoType
  | .vPrim ty _ => ty
  | .vArray ty _ => ty
  | .vStruct ty _ => ty
  | .vPtr ty _ => ty
  | .vSlice ty _ => ty
  | .vMap ty _ => ty
  | .vIface ty _ => ty

/-- `T.UnfilteredType`: register the dynamic type of a sample value as
unfiltered (modelled from the spec, like `T.UnfilteredReflectType`). -/
def T.UnfilteredType (env : Env) (t : T) (sample : Option GoVal) : T :=
  T.UnfilteredReflectType env t (sample.map typeOf)

/-- Zero value of a type (`reflect.New(ty).Elem()`). -/
def zeroVal (env : Env) : Nat → GoType → GoVal
  | 0, ty => .vPrim ty 0
  | fuel + 1, ty =>
      match underlying env ty with
      | .prim _ => .vPrim ty 0
      | .named _ => .vPrim ty 0
      | .array n e => .vArray ty (List.replicate n (zeroVal env fuel e))
      | .slice _ => .vSlice ty none
      | .ptr _ => .vPtr ty none
      | .mapT _ _ => .vMap ty none
      | .iface _ => .vIface ty none
      | .structT _ =>
          match fieldsOf env ty with
          | some fs => .vStruct ty (fs.map (fun f => zeroVal env fuel f.type))
          | none => .vPrim ty 0
      | .structOf fs => .vStruct ty (fs.map (fun f => zeroVal env fuel f.type))

/-- State of one `Convert` call: the filter (whose `types` memo the
just-in-time derivations update), the filtered heap under construction,
the `seenPointers` identity cache mapping original addresses to the
current contents of the filtered destination slot registered for them,
and the next fresh filtered address. -/
structure CState where
  t : T
  heap : Heap
  seen : List (Nat × GoVal)
  next : Nat

/-- Runtime identity of a reference-like value
(`unsafe.Pointer(origValue.Pointer())`); `none` for everything else and
for `nil` references, which are never registered. -/
def refAddr : GoVal → Option Nat
  | .vPtr _ (some a) => some a
  | .vSlice _ (some a) => some a
  | .vMap _ (some a) => some a
  | _ => none

/-- `reflect.Value.Set` into a destination slot of type `ftype`: setting a
concrete value into an interface-typed slot boxes it. -/
def boxIf (env : Env) (ftype : GoType) (v : GoVal) : GoVal :=
  if kindOf env ftype = Kind.kIface then .vIface ftype (some v) else v

/-- `reflect.Value.SetMapIndex`: replace the value of an existing equal
key, else add the entry. -/
def mapSet : List (GoVal × GoVal) → GoVal → GoVal → List (GoVal × GoVal)
  | [], k, v => [(k, v)]
  | (k0, v0) :: rest, k, v =>
      if k0 = k then (k, v) :: rest else (k0, v0) :: mapSet rest k v

/-- First field with the given name together with its index
(`FieldByName`). -/
def fieldByName : List StructField → String → Nat → Option (Nat × StructField)
  | [], _, _ => none
  | f :: fs, n, i => if f.name = n then some (i, f) else fieldByName fs n (i + 1)

mutual

/-- `T.convertValue` (value.go): convert an original value into a
destination slot of declared type `ftype` and return the value that slot
holds afterwards (every slot starts at its zero value).  Interfaces are
unwrapped first; identical original and filtered types short-circuit to a
shallow copy; a reference identity already in `seenPointers` resolves to
the registered slot's current contents. -/
def T.convertValue (env : Env) (oheap : Heap) :
    Nat → GoVal → GoType → CState → (Except Err GoVal) × CState
  | 0, _, _, st => (.error .noFuel, st)
  | fuel + 1, origValue, ftype, st =>
      match origValue with
      | .vIface _ oinner =>
          match oinner with
          | some inner => T.convertValue env oheap fuel inner ftype st
          | none => (.ok (zeroVal env (fuel + 1) ftype), st)
      | _ =>
          if typeOf origValue = ftype then (.ok origValue, st)
          else
            match refAddr origValue with
            | some a =>
                match alookup st.seen a with
                | some seenValue => (.ok (boxIf env ftype seenValue), st)
                | none => T.convertNonIface env oheap fuel origValue ftype st
            | none => T.convertNonIface env oheap fuel origValue ftype st
  termination_by structural fuel _ _ _ => fuel

/-- Continuation of `T.convertValue` past the interface-unwrap, shortcut
and identity-cache steps: if the destination slot is interface-typed, a
fresh value of the mapped dynamic type is allocated
(`filteredValue = reflect.New(filteredType).Elem()`); afterwards the final
`oldFilteredValue.Set(filteredValue)` writes the allocated value back —
except that the source's pointer/slice/map case returns early and skips
that write-back, leaving an interface destination at its nil zero
value. -/
def T.convertNonIface (env : Env) (oheap : Heap) :
    Nat → GoVal → GoType → CState → (Except Err GoVal) × CState
  | 0, _, _, st => (.error .noFuel, st)
  | fuel + 1, origValue, ftype, st =>
      if kindOf env ftype = Kind.kIface then
        match T.mapType env fuel st.t (typeOf origValue) with
        | (.error err, t2) => (.error err, CState.mk t2 st.heap st.seen st.next)
        | (.ok none, t2) =>
            (.error (.goErr "panic: reflect: New(nil)"),
             CState.mk t2 st.heap st.seen st.next)
        | (.ok (some ftype2), t2) =>
            match T.convertBody env oheap fuel origValue ftype2
                (CState.mk t2 st.heap st.seen st.next) with
            | (.error err, st2) => (.error err, st2)
            | (.ok (r, early), st2) =>
                if early then (.ok (GoVal.vIface ftype none), st2)
                else (.ok (GoVal.vIface ftype (some r)), st2)
      else
        match T.convertBody env oheap fuel origValue ftype st with
        | (.error err, st2) => (.error err, st2)
        | (.ok (r, _), st2) => (.ok r, st2)
  termination_by structural fuel _ _ _ => fuel

/-- The kind switch of `T.convertValue`/`T.convertPointer`.  The boolean
result marks the early-returning pointer/slice/map case (which skips the
interface write-back in `T.convertNonIface`).  Non-nil references are
registered in `seenPointers` before their referents are converted. -/
def T.convertBody (env : Env) (oheap : Heap) :
    Nat → GoVal → GoType → CState → (Except Err (GoVal × Bool)) × CState
  | 0, _, _, st => (.error .noFuel, st)
  | fuel + 1, origValue, ftype, st =>
      match origValue with
      | .vArray _ elems =>
          if ¬ lenOf env ftype = elems.length then
            (.error (.goErr "panic: reflect: array index out of range"), st)
          else
            match T.convertElems env oheap fuel "array" elems (elemOf env ftype)
                0 st with
            | (.error err, st2) => (.error err, st2)
            | (.ok es, st2) => (.ok (GoVal.vArray ftype es, false), st2)
      | .vStruct oty ovals =>
          match fieldsOf env oty, fieldsOf env ftype with
          | some ofs, some ffs =>
              match T.convertStructFields env oheap fuel (ofs.zip ovals) ffs
                  (ffs.map (fun f => zeroVal env fuel f.type)) st with
              | (.error err, st2) => (.error err, st2)
              | (.ok vals, st2) => (.ok (GoVal.vStruct ftype vals, false), st2)
          | _, _ => (.error (.goErr "panic: reflect: not a struct"), st)
      | .vPtr _ (some a) =>
          let c := st.next
          let st1 := CState.mk st.t st.heap
              (aset st.seen a (GoVal.vPtr ftype (some c))) (st.next + 1)
          match alookup oheap a with
          | some (.cPtr pointee) =>
              match T.convertValue env oheap fuel pointee (elemOf env ftype)
                  st1 with
              | (.error err, st2) => (.error (wrapErr "pointer" err), st2)
              | (.ok r, st2) =>
                  (.ok (GoVal.vPtr ftype (some c), true),
                   CState.mk st2.t (aset st2.heap c (Cell.cPtr r)) st2.seen
                     st2.next)
          | _ => (.error (.goErr "invalid pointer"), st1)
      | .vSlice _ (some a) =>
          let st1 := CState.mk st.t st.heap
              (aset st.seen a (GoVal.vSlice ftype none)) st.next
          match alookup oheap a with
          | some (.cSlice elems) =>
              match T.convertSliceElems env oheap fuel a ftype elems [] 0 st1 with
              | (.error err, st2) => (.error err, st2)
              | (.ok r, st2) => (.ok (r, true), st2)
          | _ => (.error (.goErr "invalid slice"), st1)
      | .vMap _ (some a) =>
          let c := st.next
          let st1 := CState.mk st.t (aset st.heap c (Cell.cMap []))
              (aset st.seen a (GoVal.vMap ftype (some c))) (st.next + 1)
          match alookup oheap a with
          | some (.cMap entries) =>
              match T.convertMapEntries env oheap fuel entries ftype c st1 with
              | (.error err, st2) => (.error err, st2)
              | (.ok _, st2) => (.ok (GoVal.vMap ftype (some c), true), st2)
          | _ => (.error (.goErr "invalid map"), st1)
      | .vPtr _ none => (.ok (zeroVal env (fuel + 1) ftype, false), st)
      | .vSlice _ none => (.ok (zeroVal env (fuel + 1) ftype, false), st)
      | .vMap _ none => (.ok (zeroVal env (fuel + 1) ftype, false), st)
      | .vPrim pty n =>
          if pty = ftype then (.ok (GoVal.vPrim pty n, false), st)
          else (.error (.goErr "panic: reflect.Set: type mismatch"), st)
      | .vIface _ _ => (.error (.goErr "unreachable: interface"), st)
  termination_by structural fuel _ _ _ => fuel

/-- Element loop of the array case: convert each element into the
corresponding index slot, wrapping failures with the index. -/
def T.convertElems (env : Env) (oheap : Heap) :
    Nat → String → List GoVal → GoType → Nat → CState →
    (Except Err (List GoVal)) × CState
  | 0, _, _, _, _, st => (.error .noFuel, st)
  | _ + 1, _, [], _, _, st => (.ok [], st)
  | fuel + 1, label, v :: vs, ety, i, st =>
      match T.convertValue env oheap fuel v ety st with
      | (.error err, st2) =>
          (.error (wrapErr (label ++ "[" ++ toString i ++ "]") err), st2)
      | (.ok r, st2) =>
          match T.convertElems env oheap fuel label vs ety (i + 1) st2 with
          | (.error err, st3) => (.error err, st3)
          | (.ok rs, st3) => (.ok (r :: rs), st3)
  termination_by structural fuel _ _ _ _ _ => fuel

/-- Slice loop of `T.convertPointer`: each `reflect.Append` produces a
fresh slice header over a fresh backing cell, and the registered slot — a
back-edge reads its current contents — is updated after every append; the
final answer is whatever the slot holds when the loop ends (`nil` for an
empty slice). -/
def T.convertSliceElems (env : Env) (oheap : Heap) :
    Nat → Nat → GoType → List GoVal → List GoVal → Nat → CState →
    (Except Err GoVal) × CState
  | 0, _, _, _, _, _, st => (.error .noFuel, st)
  | _ + 1, a, ftype, [], _, _, st =>
      ((match alookup st.seen a with
        | some cur => .ok cur
        | none => .ok (GoVal.vSlice ftype none)), st)
  | fuel + 1, a, ftype, v :: vs, acc, i, st =>
      match T.convertValue env oheap fuel v (elemOf env ftype) st with
      | (.error err, st2) =>
          (.error (wrapErr ("slice[" ++ toString i ++ "]") err), st2)
      | (.ok r, st2) =>
          let c := st2.next
          let st3 := CState.mk st2.t (aset st2.heap c (Cell.cSlice (acc ++ [r])))
              (aset st2.seen a (GoVal.vSlice ftype (some c))) (st2.next + 1)
          T.convertSliceElems env oheap fuel a ftype vs (acc ++ [r]) (i + 1) st3
  termination_by structural fuel _ _ _ _ _ _ => fuel

/-- Field loop of the struct case: fields absent from the filtered type
are skipped; surviving fields are converted into the destination field of
the same name, failures wrapped with the field name. -/
def T.convertStructFields (env : Env) (oheap : Heap) :
    Nat → List (StructField × GoVal) → List StructField → List GoVal →
    CState → (Except Err (List GoVal)) × CState
  | 0, _, _, _, st => (.error .noFuel, st)
  | _ + 1, [], _, acc, st => (.ok acc, st)
  | fuel + 1, (origField, ov) :: rest, ffs, acc, st =>
      match fieldByName ffs origField.name 0 with
      | none => T.convertStructFields env oheap fuel rest ffs acc st
      | some (j, ff) =>
          match T.convertValue env oheap fuel ov ff.type st with
          | (.error err, st2) =>
              (.error (wrapErr ("struct " ++ origField.name) err), st2)
          | (.ok r, st2) =>
              T.convertStructFields env oheap fuel rest ffs (acc.set j r) st2
  termination_by structural fuel _ _ _ _ => fuel

/-- Entry loop of the map case: key and value are converted into fresh
slots and stored with `SetMapIndex` into the filtered map cell.  The Go
code renders the offending key/value via `%v` in its error context; the
model uses fixed labels. -/
def T.convertMapEntries (env : Env) (oheap : Heap) :
    Nat → List (GoVal × GoVal) → GoType → Nat → CState →
    (Except Err Unit) × CState
  | 0, _, _, _, st => (.error .noFuel, st)
  | _ + 1, [], _, _, st => (.ok (), st)
  | fuel + 1, (k, v) :: rest, ftype, c, st =>
      match T.convertValue env oheap fuel k (keyOf env ftype) st with
      | (.error err, st2) => (.error (wrapErr "map key" err), st2)
      | (.ok k2, st2) =>
          match T.convertValue env oheap fuel v (elemOf env ftype) st2 with
          | (.error err, st3) => (.error (wrapErr "map value" err), st3)
          | (.ok v2, st3) =>
              let st4 :=
                match alookup st3.heap c with
                | some (.cMap cur) =>
                    CState.mk st3.t
                      (aset st3.heap c (Cell.cMap (mapSet cur k2 v2)))
                      st3.seen st3.next
                | _ => st3
              T.convertMapEntries env oheap fuel rest ftype c st4
  termination_by structural fuel _ _ _ _ => fuel

end

/-- `T.Convert` (value.go): derive the filtered type for the input's
dynamic type, allocate a destination of that type and populate it; `nil`
input converts to `nil`. -/
def T.Convert (env : Env) (fuel : Nat) (oheap : Heap) (t : T)
    (input : Option GoVal) : (Except Err (Option GoVal)) × CState :=
  match input with
  | none => (.ok none, CState.mk t [] [] 0)
  | some v =>
      match T.mapType env fuel t (typeOf v) with
      | (.error err, t2) => (.error err, CState.mk t2 [] [] 0)
      | (.ok none, t2) =>
          (.error (.goErr "panic: reflect: New(nil)"), CState.mk t2 [] [] 0)
      | (.ok (some filteredType), t2) =>
          match T.convertValue env oheap fuel v filteredType
              (CState.mk t2 [] [] 0) with
          | (.error err, st2) => (.error err, st2)
          | (.ok r, st2) => (.ok (some r), st2)

/-! ### Concrete fixtures -/

/-- The `int` leaf type. -/
def intT : GoType := GoType.prim "int"

/-- The `string` leaf type. -/
def stringT : GoType := GoType.prim "string"

/-- Is a value an interface value?  `reflect.ValueOf` never produces one,
so dynamic values given to `Convert` are non-interface. -/
def isIfaceVal : GoVal → Bool
  | .vIface _ _ => true
  | _ => false

/-- Types built only from leaves, arrays, slices, pointers and maps: no
record, no interface, no named type anywhere. -/
def plainType : GoType → Bool
  | .prim _ => true
  | .array _ e => plainType e
  | .slice e => plainType e
  | .ptr e => plainType e
  | .mapT k v => plainType k && plainType v
  | .iface _ => false
  | .structT _ => false
  | .structOf _ => false
  | .named _ => false

/-- Environment of the directly self-referential `type R struct \x7b Ptr *R \x7d`. -/
def recEnv : Env :=
  [("R", .structDef [.mk "Ptr" "" false "" (.ptr (.structT "R"))])]

/-- The named recursive struct type `R`. -/
def recT : GoType := GoType.structT "R"

/-- The filtered shape of `R`: its field collapses to the opaque
placeholder. -/
def fRecT : GoType := GoType.structOf [.mk "Ptr" "" false "" interfaceType]

/-- Original heap of a directly self-referential value: cell 0 holds a
struct whose `Ptr` field points back to cell 0. -/
def recHeap : Heap :=
  [(0, Cell.cPtr (GoVal.vStruct recT [GoVal.vPtr (GoType.ptr recT) (some 0)]))]

/-- A value of type `R` whose `Ptr` field enters the cycle of `recHeap`. -/
def recVal : GoVal := GoVal.vStruct recT [GoVal.vPtr (GoType.ptr recT) (some 0)]

/-- Environment mirroring the test's `RecursiveStruct` with all four
self-referential field shapes. -/
def recStructEnv : Env :=
  [("RecursiveStruct", .structDef
    [.mk "Array" "" false "" (.array 42 (.ptr (.structT "RecursiveStruct"))),
     .mk "Map" "" false ""
       (.mapT (.ptr (.structT "RecursiveStruct")) (.structT "RecursiveStruct")),
     .mk "Ptr" "" false "" (.ptr (.structT "RecursiveStruct")),
     .mk "Slice" "" false "" (.slice (.structT "RecursiveStruct"))])]

/-- Environment of the non-recursively nested structs `nested` and
`NestedStruct` (type_test.go, abridged to two fields). -/
def nestedEnv : Env :=
  [("nested", .structDef [.mk "Field" "" false "" intT]),
   ("NestedStruct", .structDef
     [.mk "Field" "" false "" (.structT "nested"),
      .mk "Ptr" "" false "" (.ptr (.structT "nested"))])]

/-- Filtered shape of `nested`. -/
def fNestedT : GoType := GoType.structOf [.mk "Field" "" false "" intT]

/-- Environment of the slice-recursive `type S struct \x7b Self []S \x7d`. -/
def slcEnv : Env :=
  [("S", .structDef [.mk "Self" "" false "" (.slice (.structT "S"))])]

/-- The slice-recursive struct type `S`. -/
def slcT : GoType := GoType.structT "S"

/-- Filtered shape of `S`. -/
def fSlcT : GoType := GoType.structOf [.mk "Self" "" false "" interfaceType]

/-- Original heap for the slice cycle: cell 0 backs a one-element slice
whose element's `Self` field is that same slice. -/
def slcHeap : Heap :=
  [(0, Cell.cSlice [GoVal.vStruct slcT [GoVal.vSlice (GoType.slice slcT) (some 0)]])]

/-- A value of type `S` whose `Self` slice is the cyclic slice of
`slcHeap`. -/
def slcVal : GoVal := GoVal.vStruct slcT [GoVal.vSlice (GoType.slice slcT) (some 0)]

/-- Two-field record for the rule-failure scenario. -/
def userEnv : Env :=
  [("User", .structDef
    [.mk "Name" "" false "" stringT, .mk "Password" "" false "" stringT])]

/-- A filter function that fails exactly on the field named `Password`. -/
def errOnPassword : Func := fun f =>
  if f.name = "Password" then .error (.goErr "boom") else .ok f

/-- A filter function calling `Remove` on every field. -/
def rmF : Func := fun f => .ok (Field.Remove f)

/-- A filter function calling `Keep` on every field. -/
def kpF : Func := fun f => .ok (Field.Keep f)

/-- Environment of the self-referential non-struct named types of
type_test.go. -/
def curEnv : Env :=
  [("CuriousPointer", .aliasDef (.ptr (.named "CuriousPointer"))),
   ("CuriousSlice", .aliasDef (.slice (.named "CuriousSlice"))),
   ("CuriousMap", .aliasDef
     (.mapT (.ptr (.named "CuriousMap")) (.named "CuriousMap")))]

/-- The self-referential pointer type `CuriousPointer`. -/
def cpT : GoType := GoType.named "CuriousPointer"

/-- Struct with one exported and one unexported field. -/
def uEnv : Env :=
  [("U", .structDef
    [.mk "Exported" "" false "" intT,
     .mk "unexported" "" false "structfilter" intT])]

/-- Environment of the exemption scenario: `Safe` has an unexported field
(like `time.Time`), so filtering would rewrite it to an empty struct;
`SafeStruct` wraps it in an exported field. -/
def safeEnv : Env :=
  [("Safe", .structDef [.mk "wall" "" false "time" intT]),
   ("SafeStruct", .structDef [.mk "SafeField" "" false "" (.structT "Safe")])]

/-- The named struct type `Safe`. -/
def safeT : GoType := GoType.structT "Safe"

/-- The named struct type `SafeStruct`. -/
def safeStructT : GoType := GoType.structT "SafeStruct"

/-- A `Safe` value (its unexported field holds 99). -/
def safeInner : GoVal := GoVal.vStruct safeT [GoVal.vPrim intT 99]

/-- A `SafeStruct` value wrapping `safeInner`. -/
def safeVal : GoVal := GoVal.vStruct safeStructT [safeInner]

/-- Heap of the record-free counterexample input: a pointer to a non-empty
interface value boxing an `int`. -/
def c10Heap : Heap :=
  [(0, Cell.cPtr (GoVal.vIface (GoType.iface 1) (some (GoVal.vPrim intT 7))))]

/-- A pointer-to-interface value: its type involves no record anywhere. -/
def c10Val : GoVal := GoVal.vPtr (GoType.ptr (GoType.iface 1)) (some 0)

instance {ε α : Type} [DecidableEq ε] [DecidableEq α] :
    DecidableEq (Except ε α) := fun a b =>
  match a, b with
  | .ok x, .ok y =>
      if h : x = y then .isTrue (by rw [h])
      else .isFalse (by intro he; cases he; exact h rfl)
  | .error x, .error y =>
      if h : x = y then .isTrue (by rw [h])
      else .isFalse (by intro he; cases he; exact h rfl)
  | .ok _, .error _ => .isFalse (by intro he; cases he)
  | .error _, .ok _ => .isFalse (by intro he; cases he)

/-! ### Helper lemmas -/

theorem tySize_pos : ∀ ty : GoType, 1 ≤ tySize ty
  | .prim _ => le_refl 1
  | .array _ e => by simp [tySize]
  | .slice e => by simp [tySize]
  | .ptr e => by simp [tySize]
  | .mapT k v => by simp [tySize]
  | .iface _ => le_refl 1
  | .structT _ => le_refl 1
  | .structOf fs => by simp [tySize]
  | .named _ => le_refl 1

/-- On record-, interface- and alias-free types, `T.mapType` is the
identity and touches neither the memo nor the rules. -/
theorem mapType_plain :
    ∀ (fuel : Nat) (env : Env) (t : T) (ty : GoType),
      plainType ty = true → tySize ty ≤ fuel →
      T.mapType env fuel t ty = (.ok (some ty), t) := by
  intro fuel
  induction fuel with
  | zero =>
      intro env t ty _ hsz
      exact absurd (le_trans (tySize_pos ty) hsz) (by simp)
  | succ fuel ih =>
      intro env t ty hp hsz
      cases ty with
      | prim s => simp [T.mapType, underlying]
      | array n e =>
          have he : T.mapType env fuel t e = (.ok (some e), t) :=
            ih env t e (by simpa [plainType] using hp)
              (by have := hsz; simp [tySize] at this; omega)
          simp [T.mapType, underlying, he]
      | slice e =>
          have he : T.mapType env fuel t e = (.ok (some e), t) :=
            ih env t e (by simpa [plainType] using hp)
              (by have := hsz; simp [tySize] at this; omega)
          simp [T.mapType, underlying, he]
      | ptr e =>
          have he : T.mapType env fuel t e = (.ok (some e), t) :=
            ih env t e (by simpa [plainType] using hp)
              (by have := hsz; simp [tySize] at this; omega)
          simp [T.mapType, underlying, he]
      | mapT k v =>
          have hp2 := hp
          simp [plainType] at hp2
          have hk : T.mapType env fuel t k = (.ok (some k), t) :=
            ih env t k hp2.1 (by have := hsz; simp [tySize] at this; omega)
          have hv : T.mapType env fuel t v = (.ok (some v), t) :=
            ih env t v hp2.2 (by have := hsz; simp [tySize] at this; omega)
          simp [T.mapType, underlying, hk, hv]
      | iface k => simp [plainType] at hp
      | structT n => simp [plainType] at hp
      | structOf fs => simp [plainType] at hp
      | named n => simp [plainType] at hp

/-! ### Claims -/

/-- C1: converting the directly self-referential value `recVal` (whose
`Ptr` field enters the cycle of `recHeap`) terminates and yields a
record-kind root — but the root's `Ptr` field, whose filtered slot is the
opaque placeholder, is left at its nil zero value: the converted nested
record was built (it sits, fully populated and with the correct cyclic
back-pointer, in filtered heap cell 0) and then discarded, because the
pointer/slice/map case of `convertValue` returns early without the
`oldFilteredValue.Set(filteredValue)` write-back.  So the claim's
"record-kind result at every level reachable from the root" fails below
the root. -/
theorem c1_cyclic_convert_terminates_but_loses_nested_records :
    (T.Convert recEnv 30 recHeap (New []) (some recVal)).1 =
      .ok (some (GoVal.vStruct fRecT [GoVal.vIface interfaceType none])) ∧
    alookup ((T.Convert recEnv 30 recHeap (New []) (some recVal)).2).heap 0 =
      some (Cell.cPtr (GoVal.vStruct fRecT
        [GoVal.vIface interfaceType
          (some (GoVal.vPtr (GoType.ptr fRecT) (some 0)))])) := by
  exact ⟨by decide, by decide⟩

/-- C2: re-entering an in-progress shape during recursive mapping yields
the opaque `nil` answer (first conjunct, for any state whose memo holds
the in-progress reservation); deriving the test's `RecursiveStruct` with
an empty rule chain succeeds with every filtered field of the opaque
placeholder type `interfaceType` (second conjunct); and non-cyclic
references resolve to the real filtered sub-shape (third conjunct:
`NestedStruct`'s fields get the filtered `nested` shape, not the
placeholder). -/
theorem c2_inprogress_maps_to_opaque_placeholder :
    (∀ (env : Env) (t : T) (fuel : Nat) (n : String),
        alookup t.types (GoType.structT n) = some none →
        T.mapType env (fuel + 2) t (GoType.structT n) = (.ok none, t)) ∧
    (T.ReflectType recStructEnv 40 (New [])
        (some (GoType.structT "RecursiveStruct"))).1 =
      .ok (some (GoType.structOf
        [.mk "Array" "" false "" interfaceType,
         .mk "Map" "" false "" interfaceType,
         .mk "Ptr" "" false "" interfaceType,
         .mk "Slice" "" false "" interfaceType])) ∧
    (T.ReflectType nestedEnv 40 (New [])
        (some (GoType.structT "NestedStruct"))).1 =
      .ok (some (GoType.structOf
        [.mk "Field" "" false "" fNestedT,
         .mk "Ptr" "" false "" (GoType.ptr fNestedT)])) := by
  refine ⟨?_, by decide, by decide⟩
  intro env t fuel n h
  simp [T.mapType, T.mapStructType, underlying, h]

/-- Witness for the hypothesised conjunct of C2. -/
theorem c2_witness :
    alookup (T.mk (combineFilters []) [(GoType.structT "R", none)]).types
        (GoType.structT "R") = some none ∧
    T.mapType recEnv 5 (T.mk (combineFilters []) [(GoType.structT "R", none)])
        (GoType.structT "R") =
      (.ok none, T.mk (combineFilters []) [(GoType.structT "R", none)]) :=
  ⟨by decide,
   c2_inprogress_maps_to_opaque_placeholder.1 recEnv
     (T.mk (combineFilters []) [(GoType.structT "R", none)]) 3 "R" (by decide)⟩

/-- C3 counterexample: in the slice-recursive value `slcVal` the root's
`Self` field and the `Self` field of the slice's single element reference
the identical original slice (address 0 of `slcHeap`), yet the filtered
value does not share: the outer position ends up a nil interface (the
early return discards the converted slice) while the inner back-edge
position captured the registered placeholder while it was still the nil
zero slice — two different filtered objects for one original identity. -/
theorem c3_slice_cycle_breaks_sharing :
    (T.Convert slcEnv 30 slcHeap (New []) (some slcVal)).1 =
      .ok (some (GoVal.vStruct fSlcT [GoVal.vIface interfaceType none])) ∧
    alookup ((T.Convert slcEnv 30 slcHeap (New []) (some slcVal)).2).heap 0 =
      some (Cell.cSlice [GoVal.vStruct fSlcT
        [GoVal.vIface interfaceType
          (some (GoVal.vSlice (GoType.slice fSlcT) none))]]) ∧
    ¬ (GoVal.vIface interfaceType none) =
        (GoVal.vIface interfaceType
          (some (GoVal.vSlice (GoType.slice fSlcT) none))) := by
  exact ⟨by decide, by decide, by decide⟩

/-- C3 amended: what the identity cache does guarantee is that a back-edge
— a reference-like position whose identity is already registered in
`seenPointers` — resolves to exactly the cached filtered object (boxed
when the destination slot is interface-typed), with no state change and
no re-derivation. -/
theorem c3_backedge_resolves_to_cached_object :
    ∀ (env : Env) (oheap : Heap) (fuel : Nat) (st : CState) (a : Nat)
      (ty ftype : GoType) (r v : GoVal),
      (v = GoVal.vPtr ty (some a) ∨ v = GoVal.vSlice ty (some a) ∨
        v = GoVal.vMap ty (some a)) →
      ¬ ty = ftype →
      alookup st.seen a = some r →
      T.convertValue env oheap (fuel + 1) v ftype st =
        (.ok (boxIf env ftype r), st) := by
  intro env oheap fuel st a ty ftype r v hv hne hseen
  rcases hv with h | h | h <;> subst h <;>
    simp [T.convertValue, typeOf, refAddr, hne, hseen]

/-- Witness for C3's amended theorem: a pointer back-edge into an
interface slot resolves to the cached object, boxed. -/
theorem c3_witness :
    T.convertValue [] [] 6 (GoVal.vPtr (GoType.ptr intT) (some 5))
        interfaceType
        (CState.mk (New []) [] [(5, GoVal.vPtr (GoType.ptr intT) (some 7))] 0) =
      (.ok (boxIf [] interfaceType (GoVal.vPtr (GoType.ptr intT) (some 7))),
       CState.mk (New []) [] [(5, GoVal.vPtr (GoType.ptr intT) (some 7))] 0) :=
  c3_backedge_resolves_to_cached_object [] [] 5
    (CState.mk (New []) [] [(5, GoVal.vPtr (GoType.ptr intT) (some 7))] 0) 5
    (GoType.ptr intT) interfaceType (GoVal.vPtr (GoType.ptr intT) (some 7))
    (GoVal.vPtr (GoType.ptr intT) (some 5)) (Or.inl rfl) (by decide) (by decide)

/-- C9 (the exemption registration itself is modelled from the spec, see
`T.UnfilteredReflectType`): registering `Safe` — a shape that filtering
would otherwise rewrite to an empty struct, since its only field is
unexported — adds exactly the identity entry; derivation then returns
`Safe` unchanged; `Convert` copies `Safe` field values by the identical-
type shortcut, unexported content included; without the registration the
same value is rewritten to an empty struct (fourth conjunct).  Registering
a nil shape or the self-referential non-record `Curious*` shapes is a
no-op leaving the registry empty. -/
theorem c9_unfiltered_types_pass_through :
    (T.UnfilteredType safeEnv (New []) (some safeInner)).types =
      [(safeT, some safeT)] ∧
    (T.ReflectType safeEnv 30 (T.UnfilteredType safeEnv (New [])
        (some safeInner)) (some safeT)).1 = .ok (some safeT) ∧
    (T.Convert safeEnv 30 [] (T.UnfilteredType safeEnv (New [])
        (some safeInner)) (some safeVal)).1 =
      .ok (some (GoVal.vStruct
        (GoType.structOf [.mk "SafeField" "" false "" safeT]) [safeInner])) ∧
    (T.Convert safeEnv 30 [] (New []) (some safeVal)).1 =
      .ok (some (GoVal.vStruct
        (GoType.structOf [.mk "SafeField" "" false "" (GoType.structOf [])])
        [GoVal.vStruct (GoType.structOf []) []])) ∧
    (T.UnfilteredType curEnv (New []) none).types = [] ∧
    (T.UnfilteredType curEnv (New [])
        (some (GoVal.vPtr (GoType.ptr cpT) none))).types = [] ∧
    (T.UnfilteredType curEnv (New [])
        (some (GoVal.vPtr (GoType.ptr (GoType.named "CuriousSlice")) none))).types
      = [] ∧
    (T.UnfilteredType curEnv (New [])
        (some (GoVal.vPtr (GoType.ptr (GoType.named "CuriousMap")) none))).types
      = [] := by
  refine ⟨by decide, by decide, by decide, by decide, ?_, by decide, by decide,
    by decide⟩
  rfl

/-- C10 counterexample: the input `c10Val` is a pointer-to-interface value
whose dynamic type involves no record anywhere, yet `Convert` does not
return it unchanged — every interface type is downgraded to the plain
empty interface, so the result has type `*interfaceType`, a freshly
rebuilt pointer rather than the input. -/
theorem c10_interface_bearing_input_is_rebuilt :
    (T.Convert [] 30 c10Heap (New []) (some c10Val)).1 =
      .ok (some (GoVal.vPtr (GoType.ptr interfaceType) (some 0))) ∧
    ¬ (GoVal.vPtr (GoType.ptr interfaceType) (some 0)) = c10Val := by
  exact ⟨by decide, by decide⟩

/-- C10 amended: for an input value whose dynamic type is built only from
leaves, arrays, slices, pointers and maps — no record, no interface, no
named alias anywhere — `Convert` succeeds and returns the input itself
(shallow copy through the identical-type shortcut), touching nothing. -/
theorem c10_plain_typed_inputs_convert_to_themselves :
    ∀ (env : Env) (fuel : Nat) (oheap : Heap) (t : T) (v : GoVal),
      isIfaceVal v = false → plainType (typeOf v) = true →
      tySize (typeOf v) ≤ fuel →
      T.Convert env fuel oheap t (some v) = (.ok (some v), CState.mk t [] [] 0) := by
  intro env fuel oheap t v hi hp hsz
  obtain ⟨f, rfl⟩ : ∃ f, fuel = f + 1 := by
    cases fuel with
    | zero => exact absurd (le_trans (tySize_pos _) hsz) (by simp)
    | succ f => exact ⟨f, rfl⟩
  have hmap := mapType_plain (f + 1) env t (typeOf v) hp hsz
  cases v with
  | vIface ty o => simp [isIfaceVal] at hi
  | vPrim ty n =>
      simp [typeOf] at hmap
      simp [T.Convert, hmap, T.convertValue, typeOf]
  | vArray ty es =>
      simp [typeOf] at hmap
      simp [T.Convert, hmap, T.convertValue, typeOf]
  | vStruct ty es =>
      simp [typeOf] at hmap
      simp [T.Convert, hmap, T.convertValue, typeOf]
  | vPtr ty a =>
      simp [typeOf] at hmap
      simp [T.Convert, hmap, T.convertValue, typeOf]
  | vSlice ty a =>
      simp [typeOf] at hmap
      simp [T.Convert, hmap, T.convertValue, typeOf]
  | vMap ty a =>
      simp [typeOf] at hmap
      simp [T.Convert, hmap, T.convertValue, typeOf]

/-- Witness for C10's amended theorem: an `int` converts to itself. -/
theorem c10_witness :
    T.Convert [] 30 [] (New []) (some (GoVal.vPrim intT 42)) =
      (.ok (some (GoVal.vPrim intT 42)), CState.mk (New []) [] [] 0) :=
  c10_plain_typed_inputs_convert_to_themselves [] 30 [] (New [])
    (GoVal.vPrim intT 42) (by decide) (by decide) (by decide)

theorem alookup_aerase_self {κ α : Type} [DecidableEq κ] (m : List (κ × α))
    (key : κ) : alookup (aerase m key) key = none := by
  induction m with
  | nil => rfl
  | cons p rest ih =>
      obtain ⟨k, v⟩ := p
      by_cases hp : k = key
      · simpa [aerase, List.filter_cons, hp] using ih
      · simpa [aerase, alookup, List.filter_cons, hp] using ih

/-- A successful `T.filterType` memoizes its result under the original
type. -/
theorem filterType_memo (env : Env) (fuel : Nat) (t : T) (orig ft : GoType)
    (t2 : T) (h : T.filterType env fuel t orig = (.ok ft, t2)) :
    alookup t2.types orig = some (some ft) := by
  cases fuel with
  | zero => simp [T.filterType] at h
  | succ f =>
      simp only [T.filterType] at h
      cases hf : fieldsOf env orig with
      | none => simp only [hf] at h; simp at h
      | some ofs =>
          rcases hff : T.filterFields env f (T.mk t.filter (aset t.types orig none))
              ofs with ⟨res, t3⟩
          cases res with
          | error err => simp only [hf, hff] at h; simp at h
          | ok sfs =>
              simp only [hf, hff] at h
              injection h with h1 h2
              injection h1 with h1
              subst h1
              subst h2
              exact alookup_aset t3.types orig (some (GoType.structOf sfs))

/-- An erred `T.filterType` (with a Go error, not fuel exhaustion) evicts
its in-progress reservation: the original type is back to not-yet-seen. -/
theorem filterType_evicts (env : Env) (fuel : Nat) (t : T) (orig : GoType)
    (e : String) (t2 : T)
    (h : T.filterType env fuel t orig = (.error (.goErr e), t2)) :
    alookup t2.types orig = none := by
  cases fuel with
  | zero => simp [T.filterType] at h
  | succ f =>
      simp only [T.filterType] at h
      cases hf : fieldsOf env orig with
      | none =>
          simp only [hf] at h
          injection h with h1 h2
          subst h2
          exact alookup_aerase_self t.types orig
      | some ofs =>
          rcases hff : T.filterFields env f (T.mk t.filter (aset t.types orig none))
              ofs with ⟨res, t3⟩
          cases res with
          | error err =>
              simp only [hf, hff] at h
              injection h with h1 h2
              subst h2
              exact alookup_aerase_self t3.types orig
          | ok sfs => simp only [hf, hff] at h; simp at h

/-- C4: if `ReflectType` answers successfully, calling it again on the
same original shape returns the identical filtered shape and leaves the
state untouched — and the second call's answer does not depend on the
filter function at all (swapping in any rule chain `g` changes nothing),
so no rule is re-executed. -/
theorem c4_repeated_derivation_is_memoized :
    ∀ (env : Env) (fuel : Nat) (t : T) (o r : Option GoType) (t1 : T),
      T.ReflectType env fuel t o = (.ok r, t1) →
      T.ReflectType env fuel t1 o = (.ok r, t1) ∧
      ∀ g : Func,
        T.ReflectType env fuel (T.mk g t1.types) o = (.ok r, T.mk g t1.types) := by
  intro env fuel t o r t1 h
  cases o with
  | none => simp [T.ReflectType] at h
  | some ty =>
      simp only [T.ReflectType] at h
      cases hg : getStructType env fuel ty with
      | notStruct => simp only [hg] at h; simp at h
      | out => simp only [hg] at h; simp at h
      | found s d =>
          simp only [hg] at h
          by_cases hd : d > 1
          · rw [if_pos hd] at h; simp at h
          · rw [if_neg hd] at h
            cases hl : alookup t.types s with
            | none =>
                rcases hft : T.filterType env fuel t s with ⟨res, t3⟩
                cases res with
                | error err => simp only [hl, hft] at h; simp at h
                | ok ft =>
                    simp only [hl, hft] at h
                    injection h with h1 h2
                    injection h1 with h1
                    subst h1
                    subst h2
                    have hm := filterType_memo env fuel t s ft t3 hft
                    constructor
                    · simp [T.ReflectType, hg, hd, hm]
                    · intro g
                      simp [T.ReflectType, hg, hd, hm]
            | some r0 =>
                simp only [hl] at h
                injection h with h1 h2
                injection h1 with h1
                subst h1
                subst h2
                constructor
                · simp [T.ReflectType, hg, hd, hl]
                · intro g
                  simp [T.ReflectType, hg, hd, hl]

/-- Witness for C4: deriving the recursive struct `R` once, the second
derivation returns the identical filtered shape with the state
unchanged. -/
theorem c4_witness :
    T.ReflectType recEnv 30 (New []) (some recT) =
      (.ok (some fRecT), T.mk (combineFilters []) [(recT, some fRecT)]) ∧
    T.ReflectType recEnv 30 (T.mk (combineFilters []) [(recT, some fRecT)])
        (some recT) =
      (.ok (some fRecT), T.mk (combineFilters []) [(recT, some fRecT)]) := by
  have h : T.ReflectType recEnv 30 (New []) (some recT) =
      (.ok (some fRecT), T.mk (combineFilters []) [(recT, some fRecT)]) := rfl
  exact ⟨h, (c4_repeated_derivation_is_memoized recEnv 30 (New []) (some recT)
    (some fRecT) (T.mk (combineFilters []) [(recT, some fRecT)]) h).1⟩

/-- C5: the rule chain failing on field `Password` of the two-field
`User` record surfaces the error wrapped with that field's name; the
memo entry for `User` is evicted (back to not-yet-seen, third conjunct
shows the whole state holds no entry); retrying on the resulting state
with a corrected (non-failing) chain succeeds cleanly; and in general any
`filterType` failure with a Go error leaves no entry for the shape
(fourth conjunct). -/
theorem c5_rule_failure_wraps_evicts_and_allows_retry :
    (T.ReflectType userEnv 30 (New [errOnPassword])
        (some (GoType.structT "User"))).1 = .error (.goErr "Password: boom") ∧
    alookup ((T.ReflectType userEnv 30 (New [errOnPassword])
        (some (GoType.structT "User"))).2).types (GoType.structT "User") =
      none ∧
    (T.ReflectType userEnv 30
        (T.mk (combineFilters [])
          ((T.ReflectType userEnv 30 (New [errOnPassword])
            (some (GoType.structT "User"))).2).types)
        (some (GoType.structT "User"))).1 =
      .ok (some (GoType.structOf
        [.mk "Name" "" false "" stringT,
         .mk "Password" "" false "" stringT])) ∧
    (∀ (env : Env) (fuel : Nat) (t : T) (orig : GoType) (e : String) (t2 : T),
        T.filterType env fuel t orig = (.error (.goErr e), t2) →
        alookup t2.types orig = none) := by
  exact ⟨by decide, by decide, by decide, filterType_evicts⟩

/-- Witness for C5's hypothesised conjunct: a failing chain on the `User`
struct leaves its entry evicted. -/
theorem c5_witness :
    T.filterType userEnv 29 (New [errOnPassword]) (GoType.structT "User") =
      (.error (.goErr "Password: boom"), T.mk (combineFilters [errOnPassword]) []) ∧
    alookup (T.mk (combineFilters [errOnPassword]) ([] : List (GoType × Option GoType))).types
        (GoType.structT "User") = none := by
  have h : T.filterType userEnv 29 (New [errOnPassword]) (GoType.structT "User") =
      (.error (.goErr "Password: boom"), T.mk (combineFilters [errOnPassword]) []) := rfl
  exact ⟨h, c5_rule_failure_wraps_evicts_and_allows_retry.2.2.2 userEnv 29
    (New [errOnPassword]) (GoType.structT "User") "Password: boom"
    (T.mk (combineFilters [errOnPassword]) []) h⟩

/-- Appending a total rule to a chain post-composes it on the success
path (the loop of `combineFilters` applies rules left to right to the
same descriptor). -/
theorem combineLoop_append (g : Func) (tail : Field → Field)
    (hg : ∀ f, g f = .ok (tail f)) :
    ∀ (gs : List Func) (i : Nat) (f : Field),
      combineLoop (gs ++ [g]) i f =
        (match combineLoop gs i f with
         | .error e => .error e
         | .ok f2 => .ok (tail f2)) := by
  intro gs
  induction gs with
  | nil => intro i f; simp [combineLoop, hg]
  | cons g0 gs ih =>
      intro i f
      simp only [List.cons_append, combineLoop]
      cases hg0 : g0 f with
      | error e => simp
      | ok f2 => simp [ih]

/-- C6: filter functions compose sequentially in registration order over
the same descriptor and the last `Keep`/`Remove` wins: `[Remove, Keep]`
keeps any field, `[Keep, Remove]` drops it, and appending `Keep`
(resp. `Remove`) to any successful chain forces the final decision,
with no sticky remove. -/
theorem c6_last_keep_remove_wins :
    (∀ f : Field, combineFilters [rmF, kpF] f = .ok (Field.Keep f)) ∧
    (∀ f : Field, combineFilters [kpF, rmF] f = .ok (Field.Remove f)) ∧
    (∀ (gs : List Func) (f r : Field),
        combineFilters (gs ++ [kpF]) f = .ok r → r.keep = true) ∧
    (∀ (gs : List Func) (f r : Field),
        combineFilters (gs ++ [rmF]) f = .ok r → r.keep = false) := by
  have hkp : ∀ f : Field, kpF f = .ok (Field.Keep f) := fun _ => rfl
  have hrm : ∀ f : Field, rmF f = .ok (Field.Remove f) := fun _ => rfl
  refine ⟨fun f => rfl, fun f => rfl, ?_, ?_⟩
  · intro gs f r h
    cases gs with
    | nil =>
        simp only [List.nil_append, combineFilters] at h
        rw [hkp f] at h
        cases h
        rfl
    | cons g0 gs2 =>
        obtain ⟨x, xs, hx⟩ : ∃ x xs, gs2 ++ [kpF] = x :: xs := by
          cases gs2 <;> exact ⟨_, _, rfl⟩
        simp only [List.cons_append, hx, combineFilters] at h
        rw [← hx, ← List.cons_append] at h
        rw [combineLoop_append kpF Field.Keep hkp (g0 :: gs2) 0 f] at h
        cases hcl : combineLoop (g0 :: gs2) 0 f with
        | error e => rw [hcl] at h; cases h
        | ok f2 => rw [hcl] at h; cases h; rfl
  · intro gs f r h
    cases gs with
    | nil =>
        simp only [List.nil_append, combineFilters] at h
        rw [hrm f] at h
        cases h
        rfl
    | cons g0 gs2 =>
        obtain ⟨x, xs, hx⟩ : ∃ x xs, gs2 ++ [rmF] = x :: xs := by
          cases gs2 <;> exact ⟨_, _, rfl⟩
        simp only [List.cons_append, hx, combineFilters] at h
        rw [← hx, ← List.cons_append] at h
        rw [combineLoop_append rmF Field.Remove hrm (g0 :: gs2) 0 f] at h
        cases hcl : combineLoop (g0 :: gs2) 0 f with
        | error e => rw [hcl] at h; cases h
        | ok f2 => rw [hcl] at h; cases h; rfl

/-- None of the derivation functions ever changes the filter function
component of the state: rules are installed once by `New` and only the
`types` memo evolves. -/
theorem derive_preserves_filter :
    ∀ (fuel : Nat) (env : Env),
      (∀ (t : T) (ty : GoType), ((T.mapType env fuel t ty).2).filter = t.filter) ∧
      (∀ (t : T) (ty : GoType),
        ((T.mapStructType env fuel t ty).2).filter = t.filter) ∧
      (∀ (t : T) (ty : GoType),
        ((T.filterType env fuel t ty).2).filter = t.filter) ∧
      (∀ (t : T) (fs : List StructField),
        ((T.filterFields env fuel t fs).2).filter = t.filter) ∧
      (∀ (t : T) (o : StructField) (fd : Field),
        ((T.newField env fuel t o fd).2).filter = t.filter) := by
  intro fuel
  induction fuel with
  | zero =>
      intro env
      exact ⟨fun t ty => rfl, fun t ty => rfl, fun t ty => rfl,
        fun t fs => rfl, fun t o fd => rfl⟩
  | succ f ih =>
      intro env
      obtain ⟨im, is, ift, iff2, inf⟩ := ih env
      refine ⟨?_, ?_, ?_, ?_, ?_⟩
      · intro t ty
        simp only [T.mapType]
        cases hu : underlying env ty with
        | prim s => rfl
        | iface k => rfl
        | named n => rfl
        | structT n => exact is t ty
        | structOf fs => exact is t ty
        | array n e =>
            rcases hr : T.mapType env f t e with ⟨res, t2⟩
            have h2 : t2.filter = t.filter := by have := im t e; rwa [hr] at this
            cases res with
            | error err => simp [hr, h2]
            | ok o =>
                cases o with
                | none => simp [hr, h2]
                | some e2 => by_cases he : e2 = e <;> simp [hr, he, h2]
        | slice e =>
            rcases hr : T.mapType env f t e with ⟨res, t2⟩
            have h2 : t2.filter = t.filter := by have := im t e; rwa [hr] at this
            cases res with
            | error err => simp [hr, h2]
            | ok o =>
                cases o with
                | none => simp [hr, h2]
                | some e2 => by_cases he : e2 = e <;> simp [hr, he, h2]
        | ptr e =>
            rcases hr : T.mapType env f t e with ⟨res, t2⟩
            have h2 : t2.filter = t.filter := by have := im t e; rwa [hr] at this
            cases res with
            | error err => simp [hr, h2]
            | ok o =>
                cases o with
                | none => simp [hr, h2]
                | some e2 => by_cases he : e2 = e <;> simp [hr, he, h2]
        | mapT k v =>
            rcases hk : T.mapType env f t k with ⟨kres, t2⟩
            have h2 : t2.filter = t.filter := by have := im t k; rwa [hk] at this
            rcases hv : T.mapType env f t2 v with ⟨vres, t3⟩
            have h3 : t3.filter = t2.filter := by have := im t2 v; rwa [hv] at this
            cases kres with
            | error err => simp [hk, h2]
            | ok ko =>
                cases vres with
                | error err => simp [hk, hv, h2, h3]
                | ok vo =>
                    cases ko with
                    | none => simp [hk, hv, h2, h3]
                    | some k2 =>
                        cases vo with
                        | none => simp [hk, hv, h2, h3]
                        | some v2 =>
                            by_cases hkv : k2 = k ∧ v2 = v <;>
                              simp [hk, hv, hkv, h2, h3]
      · intro t ty
        simp only [T.mapStructType]
        cases hl : alookup t.types ty with
        | some r => rfl
        | none =>
            rcases hft : T.filterType env f t ty with ⟨res, t2⟩
            have h2 : t2.filter = t.filter := by
              have := ift t ty; rwa [hft] at this
            cases res with
            | error err => simp [hft, h2]
            | ok ft => simp [hft, h2]
      · intro t ty
        simp only [T.filterType]
        cases hf : fieldsOf env ty with
        | none => rfl
        | some ofs =>
            rcases hff : T.filterFields env f
                (T.mk t.filter (aset t.types ty none)) ofs with ⟨res, t2⟩
            have h2 : t2.filter = t.filter := by
              have := iff2 (T.mk t.filter (aset t.types ty none)) ofs
              rwa [hff] at this
            cases res with
            | error err => simp [hff, h2]
            | ok sfs => simp [hff, h2]
      · intro t fs
        cases fs with
        | nil => rfl
        | cons origField rest =>
            simp only [T.filterFields]
            by_cases hp : ¬ origField.pkgPath = ""
            · simp only [hp, if_true]
              exact iff2 t rest
            · simp only [hp, if_false]
              cases hfl : t.filter (Field.mk origField.name origField.tag true) with
              | error err => rfl
              | ok field2 =>
                  by_cases hk : field2.keep = false
                  · simp only [hk, if_true]
                    exact iff2 t rest
                  · simp only [hk, if_false]
                    rcases hnf : T.newField env f t origField field2 with ⟨res, t2⟩
                    have h2 : t2.filter = t.filter := by
                      have := inf t origField field2; rwa [hnf] at this
                    cases res with
                    | error err => simp [hnf, h2]
                    | ok sf =>
                        rcases hrest : T.filterFields env f t2 rest with ⟨res2, t3⟩
                        have h3 : t3.filter = t2.filter := by
                          have := iff2 t2 rest; rwa [hrest] at this
                        cases res2 with
                        | error err => simp [hnf, hrest, h2, h3]
                        | ok sfs => simp [hnf, hrest, h2, h3]
      · intro t o fd
        simp only [T.newField]
        rcases hr : T.mapType env f t o.type with ⟨res, t2⟩
        have h2 : t2.filter = t.filter := by
          have := im t o.type; rwa [hr] at this
        cases res with
        | error err => simp [hr, h2]
        | ok mo =>
            cases mo with
            | none => simp [hr, h2]
            | some mapped => simp [hr, h2]

mutual

/-- Every named struct type mentioned anywhere in the type is defined in
the environment (so `NumField`/`Field` access — `fieldsOf` — cannot
fail).  Named aliases are harmless here: under a `structOnlyEnv` they
resolve to leaves. -/
def tyDefed (env : Env) : GoType → Bool
  | .prim _ => true
  | .array _ e => tyDefed env e
  | .slice e => tyDefed env e
  | .ptr e => tyDefed env e
  | .mapT k v => tyDefed env k && tyDefed env v
  | .iface _ => true
  | .structT n =>
      match alookup env n with
      | some (.structDef _) => true
      | _ => false
  | .structOf fs => fieldsDefed env fs
  | .named _ => true

/-- All field types of a list are `tyDefed`. -/
def fieldsDefed (env : Env) : List StructField → Bool
  | [] => true
  | .mk _ _ _ _ ty :: fs => tyDefed env ty && fieldsDefed env fs

end

/-- An environment of struct definitions only (no aliases), all of whose
field types mention only defined struct names. -/
def structOnlyEnv (env : Env) : Bool :=
  env.all fun p =>
    match p.2 with
    | .structDef fs => fieldsDefed env fs
    | .aliasDef _ => false

/-- The rule chain of a state never fails. -/
def filterOK (t : T) : Prop := ∀ f, ∃ f2, t.filter f = Except.ok f2

theorem alookup_mem {κ α : Type} [DecidableEq κ] :
    ∀ (m : List (κ × α)) (k : κ) (v : α), alookup m k = some v → (k, v) ∈ m := by
  intro m
  induction m with
  | nil => intro k v h; cases h
  | cons p rest ih =>
      intro k v h
      obtain ⟨k0, v0⟩ := p
      by_cases hk : k0 = k
      · subst hk
        simp [alookup] at h
        subst h
        exact List.mem_cons_self _ _
      · simp [alookup, hk] at h
        exact List.mem_cons_of_mem _ (ih k v h)

theorem structOnlyEnv_structDef (env : Env) (n : String)
    (fs : List StructField) (henv : structOnlyEnv env = true)
    (hl : alookup env n = some (.structDef fs)) :
    fieldsDefed env fs = true := by
  have hmem := alookup_mem env n (.structDef fs) hl
  have h2 := (List.all_eq_true.mp henv) _ hmem
  simp only [] at h2
  exact h2

theorem structOnlyEnv_no_alias (env : Env) (n : String) (u : GoType)
    (henv : structOnlyEnv env = true)
    (hl : alookup env n = some (.aliasDef u)) : False := by
  have hmem := alookup_mem env n (.aliasDef u) hl
  have h2 := (List.all_eq_true.mp henv) _ hmem
  simp at h2

/-- In a struct-only environment, a named alias resolves to an undefined
leaf. -/
theorem underlying_named_structOnly (env : Env) (n : String)
    (henv : structOnlyEnv env = true) :
    underlying env (GoType.named n) = GoType.prim ("undefined:" ++ n) := by
  simp only [underlying]
  cases hl : alookup env n with
  | none => rfl
  | some d =>
      cases d with
      | structDef fs => rfl
      | aliasDef u => exact (structOnlyEnv_no_alias env n u henv hl).elim

/-- In a defed struct-only setting, the derivation engine never produces a
Go error unless a rule fails: its only failure mode is fuel exhaustion
(which models divergence, impossible in Go for finitely many struct
types). -/
theorem derive_goErr_free :
    ∀ (fuel : Nat) (env : Env), structOnlyEnv env = true →
      (∀ (t : T) (ty : GoType) (e : String), filterOK t →
          tyDefed env ty = true →
          ¬ (T.mapType env fuel t ty).1 = .error (.goErr e)) ∧
      (∀ (t : T) (ty : GoType) (ofs : List StructField) (e : String),
          filterOK t → fieldsOf env ty = some ofs →
          fieldsDefed env ofs = true →
          ¬ (T.mapStructType env fuel t ty).1 = .error (.goErr e)) ∧
      (∀ (t : T) (ty : GoType) (ofs : List StructField) (e : String),
          filterOK t → fieldsOf env ty = some ofs →
          fieldsDefed env ofs = true →
          ¬ (T.filterType env fuel t ty).1 = .error (.goErr e)) ∧
      (∀ (t : T) (fs : List StructField) (e : String), filterOK t →
          fieldsDefed env fs = true →
          ¬ (T.filterFields env fuel t fs).1 = .error (.goErr e)) ∧
      (∀ (t : T) (o : StructField) (fd : Field) (e : String), filterOK t →
          tyDefed env o.type = true →
          ¬ (T.newField env fuel t o fd).1 = .error (.goErr e)) := by
  intro fuel
  induction fuel with
  | zero =>
      intro env _
      exact ⟨fun t ty e _ _ => by simp [T.mapType],
        fun t ty ofs e _ _ _ => by simp [T.mapStructType],
        fun t ty ofs e _ _ _ => by simp [T.filterType],
        fun t fs e _ _ => by simp [T.filterFields],
        fun t o fd e _ _ => by simp [T.newField]⟩
  | succ f ih =>
      intro env henv
      obtain ⟨im, is, ift, iff2, inf⟩ := ih env henv
      obtain ⟨pm, ps, pft, pff, pnf⟩ := derive_preserves_filter f env
      have hokOf : ∀ (t t2 : T), t2.filter = t.filter → filterOK t → filterOK t2 := by
        intro t t2 he hok f0
        rw [he]
        exact hok f0
      refine ⟨?_, ?_, ?_, ?_, ?_⟩
      · -- mapType
        intro t ty e hok hdef
        cases ty with
        | prim s => simp [T.mapType, underlying]
        | iface k => simp [T.mapType, underlying]
        | named n =>
            simp [T.mapType, underlying_named_structOnly env n henv]
        | array n e0 =>
            simp only [T.mapType, underlying]
            have hdefE : tyDefed env e0 = true := by simpa [tyDefed] using hdef
            rcases hr : T.mapType env f t e0 with ⟨res, t2⟩
            cases res with
            | error err =>
                cases err with
                | goErr s => exact absurd (by rw [hr]) (im t e0 s hok hdefE)
                | noFuel => simp [hr]
            | ok o =>
                cases o with
                | none => simp [hr]
                | some e2 => by_cases he : e2 = e0 <;> simp [hr, he]
        | slice e0 =>
            simp only [T.mapType, underlying]
            have hdefE : tyDefed env e0 = true := by simpa [tyDefed] using hdef
            rcases hr : T.mapType env f t e0 with ⟨res, t2⟩
            cases res with
            | error err =>
                cases err with
                | goErr s => exact absurd (by rw [hr]) (im t e0 s hok hdefE)
                | noFuel => simp [hr]
            | ok o =>
                cases o with
                | none => simp [hr]
                | some e2 => by_cases he : e2 = e0 <;> simp [hr, he]
        | ptr e0 =>
            simp only [T.mapType, underlying]
            have hdefE : tyDefed env e0 = true := by simpa [tyDefed] using hdef
            rcases hr : T.mapType env f t e0 with ⟨res, t2⟩
            cases res with
            | error err =>
                cases err with
                | goErr s => exact absurd (by rw [hr]) (im t e0 s hok hdefE)
                | noFuel => simp [hr]
            | ok o =>
                cases o with
                | none => simp [hr]
                | some e2 => by_cases he : e2 = e0 <;> simp [hr, he]
        | mapT k v =>
            simp only [T.mapType, underlying]
            have hdef2 : tyDefed env k = true ∧ tyDefed env v = true := by
              simpa [tyDefed] using hdef
            rcases hk : T.mapType env f t k with ⟨kres, t2⟩
            have hflt : t2.filter = t.filter := by
              have := pm t k; rwa [hk] at this
            rcases hv : T.mapType env f t2 v with ⟨vres, t3⟩
            cases kres with
            | error err =>
                cases err with
                | goErr s => exact absurd (by rw [hk]) (im t k s hok hdef2.1)
                | noFuel => simp [hk]
            | ok ko =>
                cases vres with
                | error err =>
                    cases err with
                    | goErr s =>
                        exact absurd (by rw [hv])
                          (im t2 v s (hokOf t t2 hflt hok) hdef2.2)
                    | noFuel => simp [hk, hv]
                | ok vo =>
                    cases ko with
                    | none => simp [hk, hv]
                    | some k2 =>
                        cases vo with
                        | none => simp [hk, hv]
                        | some v2 =>
                            by_cases hkv : k2 = k ∧ v2 = v <;> simp [hk, hv, hkv]
        | structT n =>
            simp only [T.mapType, underlying]
            have hl : ∃ fs, alookup env n = some (.structDef fs) := by
              simp only [tyDefed] at hdef
              cases hl0 : alookup env n with
              | none => rw [hl0] at hdef; simp at hdef
              | some d =>
                  cases d with
                  | structDef fs => exact ⟨fs, rfl⟩
                  | aliasDef u => rw [hl0] at hdef; simp at hdef
            obtain ⟨fs, hl⟩ := hl
            exact is t (.structT n) fs e hok (by simp [fieldsOf, hl])
              (structOnlyEnv_structDef env n fs henv hl)
        | structOf fs =>
            simp only [T.mapType, underlying]
            exact is t (.structOf fs) fs e hok (by simp [fieldsOf])
              (by simpa [tyDefed] using hdef)
      · -- mapStructType
        intro t ty ofs e hok hfo hfd
        simp only [T.mapStructType]
        cases hl : alookup t.types ty with
        | some r => simp
        | none =>
            rcases hft : T.filterType env f t ty with ⟨res, t2⟩
            cases res with
            | error err =>
                cases err with
                | goErr s =>
                    exact absurd (by rw [hft]) (ift t ty ofs s hok hfo hfd)
                | noFuel => simp [hft]
            | ok ft => simp [hft]
      · -- filterType
        intro t ty ofs e hok hfo hfd
        simp only [T.filterType, hfo]
        rcases hff : T.filterFields env f (T.mk t.filter (aset t.types ty none))
            ofs with ⟨res, t2⟩
        have hok2 : filterOK (T.mk t.filter (aset t.types ty none)) := hok
        cases res with
        | error err =>
            cases err with
            | goErr s =>
                exact absurd (by rw [hff])
                  (iff2 (T.mk t.filter (aset t.types ty none)) ofs s hok2 hfd)
            | noFuel => simp [hff]
        | ok sfs => simp [hff]
      · -- filterFields
        intro t fs e hok hfd
        cases fs with
        | nil => simp [T.filterFields]
        | cons origField rest =>
            obtain ⟨fn, ftg, fan, fpk, fty⟩ := origField
            have hfd2 : tyDefed env fty = true ∧ fieldsDefed env rest = true := by
              simpa [fieldsDefed] using hfd
            simp only [T.filterFields]
            by_cases hp : ¬ (StructField.mk fn ftg fan fpk fty).pkgPath = ""
            · simp only [hp, if_true]
              exact iff2 t rest e hok hfd2.2
            · simp only [hp, if_false]
              obtain ⟨f2, hf2⟩ := hok (Field.mk
                (StructField.mk fn ftg fan fpk fty).name
                (StructField.mk fn ftg fan fpk fty).tag true)
              rw [hf2]
              by_cases hkeep : f2.keep = false
              · simp only [hkeep, if_true]
                exact iff2 t rest e hok hfd2.2
              · simp only [hkeep, if_false]
                rcases hnf : T.newField env f t (StructField.mk fn ftg fan fpk fty)
                    f2 with ⟨res, t2⟩
                have hflt : t2.filter = t.filter := by
                  have := pnf t (StructField.mk fn ftg fan fpk fty) f2
                  rwa [hnf] at this
                cases res with
                | error err =>
                    cases err with
                    | goErr s =>
                        exact absurd (by rw [hnf])
                          (inf t (StructField.mk fn ftg fan fpk fty) f2 s hok
                            hfd2.1)
                    | noFuel => simp [hnf, wrapErr]
                | ok sf =>
                    rcases hrest : T.filterFields env f t2 rest with ⟨res2, t3⟩
                    cases res2 with
                    | error err =>
                        cases err with
                        | goErr s =>
                            exact absurd (by rw [hrest])
                              (iff2 t2 rest s (hokOf t t2 hflt hok) hfd2.2)
                        | noFuel => simp [hnf, hrest]
                    | ok sfs => simp [hnf, hrest]
      · -- newField
        intro t o fd e hok hdef
        simp only [T.newField]
        rcases hr : T.mapType env f t o.type with ⟨res, t2⟩
        cases res with
        | error err =>
            cases err with
            | goErr s => exact absurd (by rw [hr]) (im t o.type s hok hdef)
            | noFuel => simp [hr]
        | ok mo =>
            cases mo with
            | none => simp [hr]
            | some mapped => simp [hr]

/-- When the pointer-unwrapping loop of `getStructType` finds a struct
type, that struct's fields are available and defined. -/
theorem getStructTypeFuel_found_defed :
    ∀ (fuel : Nat) (env : Env) (ty : GoType) (d : Nat) (s : GoType) (d2 : Nat),
      structOnlyEnv env = true → tyDefed env ty = true →
      getStructTypeFuel env fuel ty d = .found s d2 →
      ∃ ofs, fieldsOf env s = some ofs ∧ fieldsDefed env ofs = true := by
  intro fuel
  induction fuel with
  | zero => intro env ty d s d2 _ _ h; cases h
  | succ f ih =>
      intro env ty d s d2 henv hdef h
      simp only [getStructTypeFuel] at h
      cases hk : kindOf env ty with
      | kStruct =>
          rw [hk] at h
          injection h with h1 h2
          subst h1
          cases ty with
          | structT n =>
              simp only [tyDefed] at hdef
              cases hl : alookup env n with
              | none => rw [hl] at hdef; simp at hdef
              | some td =>
                  cases td with
                  | structDef fs =>
                      exact ⟨fs, by simp [fieldsOf, hl],
                        structOnlyEnv_structDef env n fs henv hl⟩
                  | aliasDef u => rw [hl] at hdef; simp at hdef
          | structOf fs =>
              exact ⟨fs, rfl, by simpa [tyDefed] using hdef⟩
          | named n =>
              rw [kindOf, underlying_named_structOnly env n henv] at hk
              cases hk
          | prim p => simp [kindOf, underlying] at hk
          | array m e => simp [kindOf, underlying] at hk
          | slice e => simp [kindOf, underlying] at hk
          | ptr e => simp [kindOf, underlying] at hk
          | mapT k v => simp [kindOf, underlying] at hk
          | iface k => simp [kindOf, underlying] at hk
      | kPtr =>
          rw [hk] at h
          cases ty with
          | ptr e =>
              exact ih env e (d + 1) s d2 henv (by simpa [tyDefed] using hdef)
                (by simpa [elemOf, underlying] using h)
          | named n =>
              rw [kindOf, underlying_named_structOnly env n henv] at hk
              cases hk
          | prim p => simp [kindOf, underlying] at hk
          | array m e => simp [kindOf, underlying] at hk
          | slice e => simp [kindOf, underlying] at hk
          | mapT k v => simp [kindOf, underlying] at hk
          | iface k => simp [kindOf, underlying] at hk
          | structT n => simp [kindOf, underlying] at hk
          | structOf fs => simp [kindOf, underlying] at hk
      | kPrim => rw [hk] at h; cases h
      | kArray => rw [hk] at h; cases h
      | kSlice => rw [hk] at h; cases h
      | kMap => rw [hk] at h; cases h
      | kIface => rw [hk] at h; cases h

/-- The unwrapping loop never terminates on the self-referential
`CuriousPointer` type: peeling one `*` yields the same type again. -/
theorem getStructTypeFuel_cp :
    ∀ (fuel d : Nat), getStructTypeFuel curEnv fuel cpT d = .out := by
  intro fuel
  induction fuel with
  | zero => intro d; rfl
  | succ f ih =>
      intro d
      have h1 : kindOf curEnv cpT = Kind.kPtr := by decide
      have h2 : elemOf curEnv cpT = cpT := by decide
      simp [getStructTypeFuel, h1, h2, ih]

/-- C7: the entry point errors on a nil shape (first conjunct), on a
non-record chain (second) and on more than one level of indirection
(third); conversely (fourth conjunct), in a defined struct-only
environment with a never-failing rule chain, a Go error implies one of
those shape conditions — a record shape or single pointer to one is
accepted.  Fifth conjunct: the claim's "exactly when" fails for the
self-referential pointer chain `CuriousPointer` — a non-record argument
on which the Go code never returns at all (for every fuel the unwrapping
diverges), instead of returning an error. -/
theorem c7_shape_error_classification :
    (∀ (env : Env) (fuel : Nat) (t : T),
        T.ReflectType env fuel t none = (.error (.goErr "orig is nil"), t)) ∧
    (∀ (env : Env) (fuel : Nat) (t : T) (ty : GoType),
        getStructType env fuel ty = .notStruct →
        T.ReflectType env fuel t (some ty) =
          (.error (.goErr "not a struct type or pointer to struct type"), t)) ∧
    (∀ (env : Env) (fuel : Nat) (t : T) (ty s : GoType) (d : Nat),
        getStructType env fuel ty = .found s d → d > 1 →
        T.ReflectType env fuel t (some ty) =
          (.error (.goErr "at most one pointer indirection allowed"), t)) ∧
    (∀ (env : Env) (fuel : Nat) (t : T) (ty : GoType) (e : String),
        structOnlyEnv env = true → tyDefed env ty = true → filterOK t →
        (T.ReflectType env fuel t (some ty)).1 = .error (.goErr e) →
        getStructType env fuel ty = .notStruct ∨
          ∃ s d, getStructType env fuel ty = .found s d ∧ d > 1) ∧
    (∀ (fuel : Nat) (t : T),
        (T.ReflectType curEnv fuel t (some cpT)).1 = .error .noFuel) := by
  refine ⟨fun env fuel t => rfl, ?_, ?_, ?_, ?_⟩
  · intro env fuel t ty h
    simp [T.ReflectType, h]
  · intro env fuel t ty s d h hd
    simp [T.ReflectType, h, hd]
  · intro env fuel t ty e henv hdef hok h
    simp only [T.ReflectType] at h
    cases hg : getStructType env fuel ty with
    | out => simp only [hg] at h; simp at h
    | notStruct => exact Or.inl rfl
    | found s d =>
        by_cases hd : d > 1
        · exact Or.inr ⟨s, d, rfl, hd⟩
        · exfalso
          simp only [hg] at h
          rw [if_neg hd] at h
          cases hl : alookup t.types s with
          | some r => simp only [hl] at h; simp at h
          | none =>
              rcases hft : T.filterType env fuel t s with ⟨res, t2⟩
              cases res with
              | ok ft => simp only [hl, hft] at h; simp at h
              | error err =>
                  simp only [hl, hft] at h
                  simp at h
                  obtain ⟨ofs, hfo, hfd⟩ := getStructTypeFuel_found_defed fuel
                    env ty 0 s d henv hdef hg
                  exact (derive_goErr_free fuel env henv).2.2.1 t s ofs e hok
                    hfo hfd (by rw [hft]; simp [h])
  · intro fuel t
    simp [T.ReflectType, getStructType, getStructTypeFuel_cp]

/-- C7 counterexample: on the self-referential pointer type
`CuriousPointer` — an argument that is neither a record shape nor a
finite chain of references to one, for which the claim asserts an error
is returned — the entry point only ever produces the divergence marker
(here evaluated at fuel 100; the claim theorem's last conjunct proves the
same for every fuel): the Go original loops forever in `getStructType`
and returns nothing at all. -/
theorem c7_counterexample_cp_diverges :
    (T.ReflectType curEnv 100 (New []) (some cpT)).1 = .error .noFuel := by
  decide

/-- Witness for C7: for the double pointer `**U` the unwrapping finds `U`
at depth 2 and the entry point reports the indirection error; applying
the classification at that concrete input names that very condition. -/
theorem c7_witness :
    (T.ReflectType uEnv 30 (New [])
        (some (GoType.ptr (GoType.ptr (GoType.structT "U"))))).1 =
      .error (.goErr "at most one pointer indirection allowed") ∧
    (getStructType uEnv 30 (GoType.ptr (GoType.ptr (GoType.structT "U"))) =
        .notStruct ∨
      ∃ s d, getStructType uEnv 30
          (GoType.ptr (GoType.ptr (GoType.structT "U"))) = .found s d ∧
        d > 1) := by
  have h : (T.ReflectType uEnv 30 (New [])
      (some (GoType.ptr (GoType.ptr (GoType.structT "U"))))).1 =
      .error (.goErr "at most one pointer indirection allowed") := by decide
  exact ⟨h, c7_shape_error_classification.2.2.2.1 uEnv 30 (New [])
    (GoType.ptr (GoType.ptr (GoType.structT "U")))
    "at most one pointer indirection allowed" (by decide) (by decide)
    (fun f => ⟨f, rfl⟩) h⟩

/-- On record-, interface- and alias-free types, `T.mapType` either runs
out of fuel or is the identity (no size bound needed). -/
theorem mapType_plain_progress :
    ∀ (fuel : Nat) (env : Env) (t : T) (ty : GoType), plainType ty = true →
      (T.mapType env fuel t ty).1 = .error .noFuel ∨
      T.mapType env fuel t ty = (.ok (some ty), t) := by
  intro fuel
  induction fuel with
  | zero => intro env t ty _; exact Or.inl rfl
  | succ f ih =>
      intro env t ty hp
      cases ty with
      | prim s => exact Or.inr (by simp [T.mapType, underlying])
      | iface k => simp [plainType] at hp
      | structT n => simp [plainType] at hp
      | structOf fs => simp [plainType] at hp
      | named n => simp [plainType] at hp
      | array n e =>
          rcases ih env t e (by simpa [plainType] using hp) with h | h
          · left
            rcases hr : T.mapType env f t e with ⟨res, t2⟩
            rw [hr] at h
            cases res with
            | error err =>
                simp at h
                subst h
                simp [T.mapType, underlying, hr]
            | ok o => simp at h
          · right
            simp [T.mapType, underlying, h]
      | slice e =>
          rcases ih env t e (by simpa [plainType] using hp) with h | h
          · left
            rcases hr : T.mapType env f t e with ⟨res, t2⟩
            rw [hr] at h
            cases res with
            | error err =>
                simp at h
                subst h
                simp [T.mapType, underlying, hr]
            | ok o => simp at h
          · right
            simp [T.mapType, underlying, h]
      | ptr e =>
          rcases ih env t e (by simpa [plainType] using hp) with h | h
          · left
            rcases hr : T.mapType env f t e with ⟨res, t2⟩
            rw [hr] at h
            cases res with
            | error err =>
                simp at h
                subst h
                simp [T.mapType, underlying, hr]
            | ok o => simp at h
          · right
            simp [T.mapType, underlying, h]
      | mapT k v =>
          have hp2 : plainType k = true ∧ plainType v = true := by
            simpa [plainType] using hp
          rcases ih env t k hp2.1 with hk | hk
          · left
            rcases hr : T.mapType env f t k with ⟨res, t2⟩
            rw [hr] at hk
            cases res with
            | error err =>
                simp at hk
                subst hk
                simp [T.mapType, underlying, hr]
            | ok o => simp at hk
          · rcases ih env t v hp2.2 with hv | hv
            · left
              rcases hr : T.mapType env f t v with ⟨res, t2⟩
              rw [hr] at hv
              cases res with
              | error err =>
                  simp at hv
                  subst hv
                  simp [T.mapType, underlying, hk, hr]
              | ok o => simp at hv
            · right
              simp [T.mapType, underlying, hk, hv]

/-- The struct field built by a successful `T.newField` carries the
descriptor's name and tag, and — when the original field type is plain —
the original field type itself. -/
theorem newField_shape :
    ∀ (fuel : Nat) (env : Env) (t : T) (o : StructField) (fd : Field)
      (sf : StructField) (t2 : T),
      T.newField env fuel t o fd = (.ok sf, t2) →
      sf.name = fd.name ∧ sf.tag = fd.Tag ∧ sf.anonymous = o.anonymous ∧
      (plainType o.type = true → sf.type = o.type) := by
  intro fuel env t o fd sf t2 h
  cases fuel with
  | zero => simp [T.newField] at h
  | succ f =>
      simp only [T.newField] at h
      rcases hr : T.mapType env f t o.type with ⟨res, t3⟩
      cases res with
      | error err => simp [hr] at h
      | ok mo =>
          cases mo with
          | none =>
              simp only [hr] at h
              injection h with h1 h2
              injection h1 with h1
              subst h1
              refine ⟨rfl, rfl, rfl, ?_⟩
              intro hp
              rcases mapType_plain_progress f env t o.type hp with hx | hx
              · rw [hr] at hx; simp at hx
              · rw [hr] at hx
                injection hx with hx1 hx2
                simp at hx1
          | some mapped =>
              simp only [hr] at h
              injection h with h1 h2
              injection h1 with h1
              subst h1
              refine ⟨rfl, rfl, rfl, ?_⟩
              intro hp
              rcases mapType_plain_progress f env t o.type hp with hx | hx
              · rw [hr] at hx; simp at hx
              · rw [hr] at hx
                simp at hx
                simp [StructField.type, hx.1]

/-- With the empty rule chain, the field loop keeps every exported field
with its name and tag, in order; field types are kept verbatim when they
are plain. -/
theorem filterFields_empty_chain :
    ∀ (fuel : Nat) (env : Env) (t : T) (ofs sfs : List StructField) (t2 : T),
      t.filter = combineFilters [] →
      (∀ f ∈ ofs, f.pkgPath = "") →
      T.filterFields env fuel t ofs = (.ok sfs, t2) →
      sfs.map StructField.name = ofs.map StructField.name ∧
      sfs.map StructField.tag = ofs.map StructField.tag ∧
      ((∀ f ∈ ofs, plainType f.type = true) →
        sfs.map StructField.type = ofs.map StructField.type) := by
  intro fuel
  induction fuel with
  | zero => intro env t ofs sfs t2 _ _ h; simp [T.filterFields] at h
  | succ f ih =>
      intro env t ofs sfs t2 hfil hexp h
      cases ofs with
      | nil =>
          simp only [T.filterFields] at h
          injection h with h1 h2
          injection h1 with h1
          subst h1
          exact ⟨rfl, rfl, fun _ => rfl⟩
      | cons o rest =>
          have hpk : o.pkgPath = "" := hexp o (List.mem_cons_self o rest)
          simp only [T.filterFields] at h
          rw [if_neg (by simp [hpk])] at h
          rw [hfil] at h
          simp only [combineFilters] at h
          rw [if_neg (by simp [Field.keep])] at h
          rcases hnf : T.newField env f t o (Field.mk o.name o.tag true)
              with ⟨res, t3⟩
          cases res with
          | error err => simp only [hnf] at h; simp at h
          | ok sf =>
              rcases hrest : T.filterFields env f t3 rest with ⟨res2, t4⟩
              cases res2 with
              | error err => simp only [hnf, hrest] at h; simp at h
              | ok sfs2 =>
                  simp only [hnf, hrest] at h
                  injection h with h1 h2
                  injection h1 with h1
                  subst h1
                  have hflt : t3.filter = t.filter := by
                    have := (derive_preserves_filter f env).2.2.2.2 t o
                      (Field.mk o.name o.tag true)
                    rwa [hnf] at this
                  have hrec := ih env t3 rest sfs2 t4 (by rw [hflt, hfil])
                    (fun g hg => hexp g (List.mem_cons_of_mem o hg)) hrest
                  have hsf := newField_shape f env t o (Field.mk o.name o.tag true)
                    sf t3 hnf
                  refine ⟨?_, ?_, ?_⟩
                  · simp [hsf.1, Field.name, hrec.1]
                  · simp [hsf.2.1, Field.Tag, hrec.2.1]
                  · intro hplain
                    have hty := hsf.2.2.2
                      (hplain o (List.mem_cons_self o rest))
                    simp [hty, hrec.2.2
                      (fun g hg => hplain g (List.mem_cons_of_mem o hg))]

/-- C8 counterexample: filtering the record `U`, which has one exported
and one unexported field, with an empty rule chain yields a filtered
shape with one field, not the original two — unexported fields are
silently dropped, so the field counts differ. -/
theorem c8_unexported_field_changes_count :
    (T.ReflectType uEnv 30 (New []) (some (GoType.structT "U"))).1 =
      .ok (some (GoType.structOf [.mk "Exported" "" false "" intT])) ∧
    fieldsOf uEnv (GoType.structT "U") =
      some [.mk "Exported" "" false "" intT,
        .mk "unexported" "" false "structfilter" intT] ∧
    ¬ ([StructField.mk "Exported" "" false "" intT].length =
        [StructField.mk "Exported" "" false "" intT,
         StructField.mk "unexported" "" false "structfilter" intT].length) := by
  exact ⟨by decide, by decide, by decide⟩

/-- C8 amended: with an empty rule chain, filtering a record shape all of
whose fields are exported yields a filtered shape with the same field
count, the same field names and tags, in the same order; the element
shapes are moreover identical to the originals whenever the field shapes
involve no record, interface or named-alias shape (otherwise they are the
recursively filtered images). -/
theorem c8_empty_chain_preserves_exported_fields :
    ∀ (env : Env) (fuel : Nat) (t : T) (orig : GoType)
      (ofs : List StructField) (ft : GoType) (t2 : T),
      t.filter = combineFilters [] →
      fieldsOf env orig = some ofs →
      (∀ f ∈ ofs, f.pkgPath = "") →
      T.filterType env fuel t orig = (.ok ft, t2) →
      ∃ sfs, ft = GoType.structOf sfs ∧
        sfs.map StructField.name = ofs.map StructField.name ∧
        sfs.map StructField.tag = ofs.map StructField.tag ∧
        ((∀ f ∈ ofs, plainType f.type = true) →
          sfs.map StructField.type = ofs.map StructField.type) := by
  intro env fuel t orig ofs ft t2 hfil hfo hexp h
  cases fuel with
  | zero => simp [T.filterType] at h
  | succ f =>
      simp only [T.filterType, hfo] at h
      rcases hff : T.filterFields env f (T.mk t.filter (aset t.types orig none))
          ofs with ⟨res, t3⟩
      rw [hff] at h
      cases res with
      | error err => simp at h
      | ok sfs =>
          injection h with h1 h2
          injection h1 with h1
          subst h1
          exact ⟨sfs, rfl,
            filterFields_empty_chain f env (T.mk t.filter (aset t.types orig none))
              ofs sfs t3 hfil hexp hff⟩

/-- Witness for C8's amended theorem: a two-field all-exported plain
record filters to itself under the empty chain. -/
theorem c8_witness :
    T.filterType userEnv 29 (New []) (GoType.structT "User") =
      (.ok (GoType.structOf
        [.mk "Name" "" false "" stringT, .mk "Password" "" false "" stringT]),
       T.mk (combineFilters [])
         [(GoType.structT "User",
           some (GoType.structOf
             [.mk "Name" "" false "" stringT,
              .mk "Password" "" false "" stringT]))]) ∧
    ∃ sfs, GoType.structOf
        [StructField.mk "Name" "" false "" stringT,
         StructField.mk "Password" "" false "" stringT] = GoType.structOf sfs ∧
      sfs.map StructField.name =
        [StructField.mk "Name" "" false "" stringT,
         StructField.mk "Password" "" false "" stringT].map StructField.name ∧
      sfs.map StructField.tag =
        [StructField.mk "Name" "" false "" stringT,
         StructField.mk "Password" "" false "" stringT].map StructField.tag ∧
      ((∀ f ∈ [StructField.mk "Name" "" false "" stringT,
          StructField.mk "Password" "" false "" stringT],
          plainType f.type = true) →
        sfs.map StructField.type =
          [StructField.mk "Name" "" false "" stringT,
           StructField.mk "Password" "" false "" stringT].map StructField.type) := by
  have h : T.filterType userEnv 29 (New []) (GoType.structT "User") =
      (.ok (GoType.structOf
        [.mk "Name" "" false "" stringT, .mk "Password" "" false "" stringT]),
       T.mk (combineFilters [])
         [(GoType.structT "User",
           some (GoType.structOf
             [.mk "Name" "" false "" stringT,
              .mk "Password" "" false "" stringT]))]) := rfl
  exact ⟨h, c8_empty_chain_preserves_exported_fields userEnv 29 (New [])
    (GoType.structT "User")
    [StructField.mk "Name" "" false "" stringT,
     StructField.mk "Password" "" false "" stringT]
    (GoType.structOf
      [.mk "Name" "" false "" stringT, .mk "Password" "" false "" stringT])
    (T.mk (combineFilters [])
      [(GoType.structT "User",
        some (GoType.structOf
          [.mk "Name" "" false "" stringT,
           .mk "Password" "" false "" stringT]))])
    rfl (by decide) (by decide) h⟩

/-- Witness for C6: a two-rule chain ending in `Remove` drops the field it
is applied to. -/
theorem c6_witness :
    combineFilters ([kpF] ++ [rmF]) (Field.mk "A" "" true) =
      .ok (Field.mk "A" "" false) ∧
    (Field.mk "A" "" false).keep = false := by
  have h : combineFilters ([kpF] ++ [rmF]) (Field.mk "A" "" true) =
      .ok (Field.mk "A" "" false) := rfl
  exact ⟨h, c6_last_keep_remove_wins.2.2.2 [kpF] (Field.mk "A" "" true)
    (Field.mk "A" "" false) h⟩

end Structfilter
